import Mathlib

/-!
# WatchScreen (Smoothieware panel): a shallow embedding

Source: `src/modules/utils/panel/screens/3dprinter/WatchScreen.cpp`.

C strings are Lean `String`s, `uint8_t`/`uint32_t` values are `Nat` with an
explicit modulus, `int` values are `Int`.  Calls into the panel, the LCD and
the kernel are recorded as a list of `Effect`s; what those collaborators
answer on a call is read from a `World` record.
-/

namespace WatchScreen

/-! ## printf conversions used by the screen -/

/-- Pads `s` on the left with `c` up to the minimum field width `w` (never shortens). -/
def padLeft (w : Nat) (c : Char) (s : List Char) : List Char :=
  List.replicate (w - s.length) c ++ s

/-- Conversion `%u` / `%lu` / `%d` of a non-negative value: decimal digits. -/
def fmt_u (n : Nat) : List Char := Nat.toDigits 10 n

/-- Conversion `%02u` / `%02lu`: decimal digits, zero-padded to at least two. -/
def fmt_02u (n : Nat) : List Char := padLeft 2 '0' (fmt_u n)

/-- Conversion `%3u`: decimal digits, space-padded to at least three. -/
def fmt_3u (n : Nat) : List Char := padLeft 3 ' ' (fmt_u n)

/-- Conversion `%d` of an `int`. -/
def fmt_d (i : Int) : List Char :=
  if i < 0 then '-' :: fmt_u i.natAbs else fmt_u i.natAbs

/-- Conversion `%3d`: space-padded to at least three. -/
def fmt_3d (i : Int) : List Char := padLeft 3 ' ' (fmt_d i)

/-- Conversion `%19s`: minimum field width 19, right-justified, no precision. -/
def fmt_19s (s : String) : String := String.mk (padLeft 19 ' ' s.data)

/-- Conversion `%.19s`: precision 19, at most 19 characters are written. -/
def fmt_p19s (s : String) : String := String.mk (s.data.take 19)

/-- The number a text of decimal digits denotes (most significant digit first). -/
def dec_value (l : List Char) : Nat := l.foldl (fun acc c => 10 * acc + (c.toNat - 48)) 0

/-! ## get_network and get_status -/

/-- The heap buffer `ipstr`: its allocated size in bytes and the text it holds. -/
structure IpBuf where
  capacity : Nat
  text : String
deriving DecidableEq, Repr

/-- The text `snprintf` formats for "IP %d.%d.%d.%d" from four `uint8_t` reads. -/
def fmt_ip (a b c d : Nat) : List Char :=
  "IP ".data ++ fmt_d (Int.ofNat (a % 256)) ++ '.' :: fmt_d (Int.ofNat (b % 256)) ++
    '.' :: fmt_d (Int.ofNat (c % 256)) ++ '.' :: fmt_d (Int.ofNat (d % 256))

/-- Result of `get_network`: the returned C string (`none` for NULL), the
`ipstr` field afterwards, whether `buf[n] = 0` stayed inside `char buf[20]`,
and whether `strcpy` stayed inside the allocation of `ipstr`. -/
structure NetResult where
  ret : Option String
  ipstr : Option IpBuf
  buf_ok : Bool
  copy_ok : Bool
deriving DecidableEq, Repr

/-- Embedding of `WatchScreen::get_network`.  `query` is what the network module
answers (`none` when `PublicData::get_value` fails). -/
def get_network (ipstr : Option IpBuf) (query : Option (Nat × Nat × Nat × Nat)) : NetResult :=
  match query with
  | some (a, b, c, d) =>
    let full := fmt_ip a b c d
    -- snprintf(buf, sizeof(buf), ...): at most 19 characters stored, n is the full length
    let n := full.length
    let buf := String.mk (full.take 19)
    let cap := match ipstr with
      | none => n + 1          -- new char[n + 1]
      | some p => p.capacity   -- reused as it is
    -- strcpy(this->ipstr, buf) writes buf and its terminator
    { ret := some buf
      ipstr := some { capacity := cap, text := buf }
      buf_ok := decide (n < 20)
      copy_ok := decide (buf.length + 1 ≤ cap) }
  | none => { ret := none, ipstr := ipstr, buf_ok := true, copy_ok := true }

/-- What the panel, the kernel and the conveyor answer to `get_status`. -/
structure StatusWorld where
  hasMessage : Bool
  getMessage : String
  is_halted : Bool
  is_suspended : Bool
  is_playing : Bool
  get_playing_file : String
  conveyor_is_idle : Bool
  network : Option (Nat × Nat × Nat × Nat)

/-- Embedding of `WatchScreen::get_status`: the status text and the `ipstr`
field afterwards (only the last case calls `get_network`). -/
def get_status (ipstr : Option IpBuf) (w : StatusWorld) : String × Option IpBuf :=
  if w.hasMessage then (w.getMessage, ipstr)
  else if w.is_halted then ("HALTED Reset or M999", ipstr)
  else if w.is_suspended then ("Suspended", ipstr)
  else if w.is_playing then (w.get_playing_file, ipstr)
  else if !w.conveyor_is_idle then ("Printing", ipstr)
  else
    let r := get_network ipstr w.network
    match r.ret with
    | none => ("Smoothie ready", r.ipstr)
    | some ip => (ip, r.ipstr)

/-! ## Controller state, collaborators and effects -/

/-- Modelled from the spec: the record `pad_temperature` that `getTemperatures`
returns (declared in TemperatureControlPublicAccess.h, not among the sources):
designator label, current and target temperature. The `float` temperatures are
only compared with constants here and are kept as rationals. -/
structure pad_temperature where
  designator : String
  current_temperature : ℚ
  target_temperature : ℚ

/-- Modelled from the spec: the record `pad_progress` of the player (declared
in PlayerPublicAccess.h, not among the sources): elapsed seconds, percent
complete, file name. -/
structure pad_progress where
  elapsed_secs : Nat
  percent_complete : Nat
  filename : String

/-- Modelled from the spec: the record `pad_switch` of the fan switch
(declared in SwitchPublicAccess.h, not among the sources): on/off and speed. -/
structure pad_switch where
  state : Bool
  value : Nat

/-- Modelled from the spec: the data members of class `WatchScreen` (declared
in WatchScreen.h, not among the sources) that the event handlers assign: the
speed percent is an integer, the elapsed seconds and the percent played are
unsigned, the controllers are a list of identifiers. The member `ipstr` is
touched by rendering only and is threaded through `get_status` above; the
position array is not kept. -/
structure State where
  speed_changed : Bool
  issue_change_speed : Bool
  update_counts : Nat
  current_speed : Int
  elapsed_time : Nat
  sd_pcnt_played : Nat
  has_fan : Bool
  fan_state : Bool
  fan_speed : Nat
  temp_controllers : List Nat

/-- Modelled from the spec: the width of the tick counter `update_counts`,
declared in `WatchScreen.h` (not among the sources); the spec's "tick counter"
is taken as `uint32_t`, so `update_counts++` wraps at this modulus. -/
def counter_modulus : Nat := 2 ^ 32

/-- Embedding of the constructor `WatchScreen::WatchScreen`: it assigns the two
flags and the counter (and `ipstr = nullptr`); every other field keeps whatever
the fresh object holds, given here as `raw`. -/
def WatchScreen_new (raw : State) : State :=
  { raw with speed_changed := false, issue_change_speed := false, update_counts := 0 }

/-- The `ipstr` field after the constructor: `nullptr`. -/
def ipstr_new : Option IpBuf := none

/-- What the collaborators answer during one handler call.
`get_control_value` is `THEPANEL->get_control_value()` as stored into the `int`
field, `get_current_speed` is `lroundf(get_current_speed())`. -/
structure World where
  click : Bool
  control_value_change : Bool
  get_control_value : Int
  get_current_speed : Int
  progress : Option pad_progress
  fan : Option pad_switch
  poll_controls : Option (List Nat)
  getTemperatures : Nat → pad_temperature
  hasGraphics : Bool
  hasFullGraphics : Bool

/-- Indicator lamps of the LCD. -/
inductive Led where
  | LED_BED_ON | LED_HOTEND_ON | LED_HOT | LED_FAN_ON
deriving DecidableEq, Repr

/-- Calls the handlers make on the panel, the LCD and the base screen. -/
inductive Effect where
  | lcd_clear
  | setup_menu (rows : Nat)
  | get_current_pos
  | enter_control_mode
  | enter_screen_parent
  | set_control_value (v : Int)
  | reset_counter
  | redraw
  | set_playing_file (f : String)
  | setLed (led : Led) (lit : Bool)
  | bltGlyph (x y yoff : Nat)
  | send_gcode (code : String) (letter : Char) (value : Int)
  | base_on_main_loop
deriving DecidableEq, Repr

/-- Embedding of `WatchScreen::get_current_status` (fan switch query). -/
def get_current_status (s : State) (w : World) : State :=
  match w.fan with
  | some sw => { s with has_fan := true, fan_state := sw.state, fan_speed := sw.value }
  | none => { s with has_fan := false, fan_state := false }

/-- Embedding of `WatchScreen::get_sd_play_info`. -/
def get_sd_play_info (s : State) (w : World) : State × List Effect :=
  match w.progress with
  | some p =>
    ({ s with elapsed_time := p.elapsed_secs, sd_pcnt_played := p.percent_complete },
      [Effect.set_playing_file p.filename])
  | none => ({ s with elapsed_time := 0, sd_pcnt_played := 0 }, [])

/-- Embedding of `WatchScreen::on_enter`. -/
def on_enter (s : State) (w : World) : State × List Effect :=
  let s1 := get_current_status s w
  let r2 := get_sd_play_info s1 w
  let s3 : State := { r2.1 with current_speed := w.get_current_speed }
  let ids := match w.poll_controls with
    | some cs => cs
    | none => []
  ({ s3 with temp_controllers := ids },
    [Effect.lcd_clear, Effect.setup_menu 4, Effect.get_current_pos] ++ r2.2 ++
    [Effect.redraw, Effect.enter_control_mode, Effect.set_control_value s3.current_speed])

/-- First character of a designator (`designator.front()`); for an empty
string the read lands on the terminator. -/
def front (s : String) : Char := s.data.headD (Char.ofNat 0)

/-- Locals of the lamp loop in `on_refresh`. -/
structure Lamps where
  bed_on : Bool
  hotend_on : Bool
  is_hot : Bool
  heon : Nat
  hemsk : Nat
deriving DecidableEq, Repr

/-- One iteration of the lamp loop (`heon`, `hemsk` are `uint8_t`). -/
def lamp_step (a : Lamps) (c : pad_temperature) : Lamps :=
  let a1 := if c.current_temperature > 50 then { a with is_hot := true } else a
  let a2 := if front c.designator = 'B' ∧ c.target_temperature > 0
    then { a1 with bed_on := true } else a1
  if front c.designator = 'T' then
    let a3 := if c.target_temperature > 0
      then { a2 with hotend_on := true, heon := (a2.heon ||| a2.hemsk) % 256 } else a2
    { a3 with hemsk := (a3.hemsk <<< 1) % 256 }
  else a2

/-- The lamp loop over the readings of the configured controllers. -/
def heater_lamps (cs : List pad_temperature) : Lamps :=
  cs.foldl lamp_step { bed_on := false, hotend_on := false, is_hot := false, heon := 0, hemsk := 1 }

/-- Lamp writes and, on displays with partial graphics only, the icon glyphs. -/
def lamp_effects (l : Lamps) (fan_state : Bool) (w : World) : List Effect :=
  [Effect.setLed Led.LED_BED_ON l.bed_on, Effect.setLed Led.LED_HOTEND_ON l.hotend_on,
   Effect.setLed Led.LED_HOT l.is_hot, Effect.setLed Led.LED_FAN_ON fan_state] ++
  (if w.hasGraphics && !w.hasFullGraphics then
    (if l.heon &&& 1 ≠ 0 then [Effect.bltGlyph 0 42 0] else []) ++
    (if l.heon &&& 2 ≠ 0 then [Effect.bltGlyph 27 42 16] else []) ++
    (if l.heon &&& 4 ≠ 0 then [Effect.bltGlyph 55 42 32] else []) ++
    (if l.bed_on then [Effect.bltGlyph 83 42 48] else []) ++
    (if fan_state then [Effect.bltGlyph 111 42 64] else [])
  else [])

/-- The speed-control part of `on_refresh` (the `control_value_change` block). -/
def speed_input (s : State) (w : World) : State × List Effect :=
  if w.control_value_change then
    let s1 : State := { s with current_speed := w.get_control_value }
    if s1.current_speed < 10 then
      ({ s1 with current_speed := 10 }, [Effect.set_control_value 10, Effect.reset_counter])
    else
      ({ s1 with speed_changed := true }, [Effect.redraw])
  else (s, [])

/-- The speed part of the slow path of `on_refresh`. -/
def speed_commit (s : State) (w : World) : State × List Effect :=
  if s.speed_changed then
    ({ s with issue_change_speed := true, speed_changed := false }, [])
  else if !s.issue_change_speed then
    ({ s with current_speed := w.get_current_speed },
      [Effect.set_control_value w.get_current_speed, Effect.reset_counter])
  else (s, [])

/-- The slow path of `on_refresh` (every 20th refresh). -/
def slow_path (s : State) (w : World) : State × List Effect :=
  let r1 := get_sd_play_info s w
  let s2 := get_current_status r1.1 w
  let r3 := speed_commit s2 w
  let lamps := heater_lamps (r3.1.temp_controllers.map w.getTemperatures)
  (r3.1, r1.2 ++ [Effect.get_current_pos] ++ r3.2 ++ [Effect.redraw] ++
    lamp_effects lamps r3.1.fan_state w)

/-- Embedding of `WatchScreen::on_refresh`. -/
def on_refresh (s : State) (w : World) : State × List Effect :=
  if w.click then (s, [Effect.enter_screen_parent])
  else
    let r1 := speed_input s w
    let s2 : State := { r1.1 with update_counts := (r1.1.update_counts + 1) % counter_modulus }
    if s2.update_counts % 20 = 0 then
      let r3 := slow_path s2 w
      (r3.1, r1.2 ++ r3.2)
    else (s2, r1.2)

/-- Embedding of `WatchScreen::set_speed`. -/
def set_speed (s : State) : List Effect :=
  [Effect.send_gcode "M220" 'S' s.current_speed]

/-- Embedding of `WatchScreen::on_main_loop`. -/
def on_main_loop (s : State) : State × List Effect :=
  if s.issue_change_speed then
    let s1 : State := { s with issue_change_speed := false }
    (s1, set_speed s1 ++ [Effect.base_on_main_loop])
  else (s, [Effect.base_on_main_loop])

/-! ## Rendering -/

/-- Row 0 of `display_menu_line`: the positions of `temp_controllers` read by
the two-step loop, each with the outcome of the read `tm[o]`. -/
def display_menu_line_0 (tm : List Nat) (update_counts : Nat) : List (Nat × Option Nat) :=
  if tm.length > 0 then
    let n := if tm.length > 2 then (update_counts / 100) % ((tm.length + 1) / 2) else 0
    let o0 := 0 + n * 2
    if o0 > tm.length - 1 then []
    else
      (o0, tm[o0]?) ::
        (let o1 := 1 + n * 2
         if o1 > tm.length - 1 then [] else [(o1, tm[o1]?)])
  else []

/-- The three time fields "%02lu:%02lu:%02lu" / "%02u:%02u:%02u". -/
def fmt_elapsed (t : Nat) : List Char :=
  fmt_02u (t / 3600) ++ ':' :: fmt_02u ((t % 3600) / 60) ++ ':' :: fmt_02u (t % 60)

/-- Row 2 of `display_menu_line`: "%3d%%  %02lu:%02lu:%02lu  %3u%%". -/
def display_menu_line_2 (s : State) : String :=
  String.mk (fmt_3d s.current_speed ++ "%  ".data ++ fmt_elapsed s.elapsed_time ++ "  ".data ++
    fmt_3u s.sd_pcnt_played ++ "%".data)

/-- Row 3 of `display_menu_line`: the status through "%19s". -/
def display_menu_line_3 (ipstr : Option IpBuf) (w : StatusWorld) : String :=
  fmt_19s (get_status ipstr w).1

/-- The status text of `draw_graphics`: the status through "%.19s". -/
def draw_graphics_status (ipstr : Option IpBuf) (w : StatusWorld) : String :=
  fmt_p19s (get_status ipstr w).1

/-- The elapsed time text of `draw_graphics`: "%02u:%02u:%02u". -/
def draw_graphics_elapsed (s : State) : String := String.mk (fmt_elapsed s.elapsed_time)

/-! ## Sequences of handler calls -/

/-- A call of one of the three handlers by the menu loop. -/
inductive Call where
  | enter (w : World)
  | refresh (w : World)
  | main_loop

/-- One handler call. -/
def step (s : State) : Call → State × List Effect
  | Call.enter w => on_enter s w
  | Call.refresh w => on_refresh s w
  | Call.main_loop => on_main_loop s

/-- A sequence of handler calls: final state and all effects in order. -/
def run (s : State) : List Call → State × List Effect
  | [] => (s, [])
  | c :: cs =>
    let r := step s c
    let r2 := run r.1 cs
    (r2.1, r.2 ++ r2.2)

/-- The S values of the speed commands among the effects, in order. -/
def speed_commands : List Effect → List Int
  | [] => []
  | Effect.send_gcode _ _ v :: es => v :: speed_commands es
  | _ :: es => speed_commands es

/-- Whether a call is a refresh that takes the slow path from state `s`. -/
def is_slow_tick (s : State) : Call → Bool
  | Call.refresh w => !w.click && ((s.update_counts + 1) % counter_modulus) % 20 == 0
  | _ => false

/-- Number of slow-path ticks along a sequence of calls. -/
def slow_ticks (s : State) : List Call → Nat
  | [] => 0
  | c :: cs => (if is_slow_tick s c then 1 else 0) + slow_ticks (step s c).1 cs

/-- Whether a call is a refresh without a click. -/
def no_click : Call → Bool
  | Call.refresh w => !w.click
  | Call.main_loop => true
  | Call.enter _ => false

/-- The value the operator last moved the control to, if any move happened. -/
def last_move : List Call → Option Int
  | [] => none
  | c :: cs =>
    match last_move cs with
    | some v => some v
    | none =>
      match c with
      | Call.refresh w => if !w.click && w.control_value_change then some w.get_control_value else none
      | _ => none

/-- Whether a call leaves a flagged or pending speed change intact: `on_enter`
does so when neither flag is set or the robot reports at least 10 percent. -/
def enter_safe (s : State) : Call → Bool
  | Call.enter w => (!s.speed_changed && !s.issue_change_speed) || decide (10 ≤ w.get_current_speed)
  | _ => true

/-- Whether every call of a sequence started in `s` is `enter_safe` where it happens. -/
def calls_safe (s : State) : List Call → Bool
  | [] => true
  | c :: cs => enter_safe s c && calls_safe (step s c).1 cs

/-- Answers of a tick on which nothing happens: no click, no move, the robot
at `speed` percent, no player, no fan switch, a text-only display. -/
def quiet_world (speed : Int) : World :=
  ⟨false, false, 0, speed, none, none, none, fun _ => ⟨"T", 0, 0⟩, false, false⟩

/-- Answers of a tick on which the operator clicks the button. -/
def clicked_world (speed : Int) : World :=
  ⟨true, false, 0, speed, none, none, none, fun _ => ⟨"T", 0, 0⟩, false, false⟩

/-- Answers of a tick on which the operator has moved the speed control to `v`. -/
def moved_world (speed v : Int) : World :=
  ⟨false, true, v, speed, none, none, none, fun _ => ⟨"T", 0, 0⟩, false, false⟩

/-- The state invariant of the speed-change flags: while a change is flagged
or pending, `current_speed` is at least 10. -/
def speed_inv (s : State) : Prop :=
  (s.speed_changed = true ∨ s.issue_change_speed = true) → 10 ≤ s.current_speed

/-- Whether a call is a refresh on which the operator moved the control to a
value of at least 10 (the moves that flag a change). -/
def flags_change : Call → Bool
  | Call.refresh w => !w.click && w.control_value_change && decide (10 ≤ w.get_control_value)
  | _ => false

/-- The latest moved-to value after the calls `cs`, given the latest one `m0` before them. -/
def latest_move (m0 : Option Int) (cs : List Call) : Option Int :=
  match last_move cs with
  | some v => some v
  | none => m0

/-- While a change is flagged or pending, `current_speed` is the latest
moved-to value `m`, raised to 10 when that was lower. -/
def carries_latest (m : Option Int) (s : State) : Prop :=
  (s.speed_changed = true ∨ s.issue_change_speed = true) →
    ∃ v, m = some v ∧ s.current_speed = max 10 v

/-- Whether a call is a main-loop call. -/
def is_main_loop : Call → Bool
  | Call.main_loop => true
  | _ => false

end WatchScreen

namespace WatchScreen

/-! ## Decimal rendering -/

theorem padLeft_length (w : Nat) (c : Char) (s : List Char) :
    (padLeft w c s).length = max w s.length := by
  simp only [padLeft, List.length_append, List.length_replicate]
  omega

theorem fmt_u_length_le (n e : Nat) (he : 0 < e) (h : n < 10 ^ e) : (fmt_u n).length ≤ e := by
  unfold fmt_u Nat.toDigits
  exact Nat.toDigitsCore_length 10 (by norm_num) (n + 1) n e h he

theorem fmt_d_ofNat (n : Nat) : fmt_d (Int.ofNat n) = fmt_u n := by
  have h : ¬ (Int.ofNat n < 0) := by
    have := Int.ofNat_nonneg n
    simp only [Int.ofNat_eq_coe] at this ⊢
    omega
  simp [fmt_d, h]

theorem fmt_ip_length (a b c d : Nat) : (fmt_ip a b c d).length ≤ 18 := by
  have ha := fmt_u_length_le (a % 256) 3 (by norm_num) (by omega)
  have hb := fmt_u_length_le (b % 256) 3 (by norm_num) (by omega)
  have hc := fmt_u_length_le (c % 256) 3 (by norm_num) (by omega)
  have hd := fmt_u_length_le (d % 256) 3 (by norm_num) (by omega)
  simp only [fmt_ip, fmt_d_ofNat, List.length_append, List.length_cons, List.length_nil]
  omega

theorem fmt_ip_take (a b c d : Nat) : (fmt_ip a b c d).take 19 = fmt_ip a b c d :=
  List.take_of_length_le (by have := fmt_ip_length a b c d; omega)

/-- C1. `get_status` returns the first applicable case in strict precedence
order: the posted message, else "HALTED Reset or M999", else "Suspended", else
the playing file, else "Printing", else "IP a.b.c.d" from the four address
bytes, else "Smoothie ready"; message+halted gives the message and nothing set
with address 1.2.3.4 gives "IP 1.2.3.4". -/
theorem get_status_precedence (ipstr : Option IpBuf) (w : StatusWorld) :
    (get_status ipstr w).1 =
      (if w.hasMessage then w.getMessage
       else if w.is_halted then "HALTED Reset or M999"
       else if w.is_suspended then "Suspended"
       else if w.is_playing then w.get_playing_file
       else if w.conveyor_is_idle = false then "Printing"
       else match w.network with
         | some (a, b, c, d) =>
           String.mk ("IP ".data ++ fmt_u (a % 256) ++ '.' :: fmt_u (b % 256) ++
             '.' :: fmt_u (c % 256) ++ '.' :: fmt_u (d % 256))
         | none => "Smoothie ready")
    ∧ (get_status ipstr { w with hasMessage := true, is_halted := true }).1 = w.getMessage
    ∧ (get_status ipstr ⟨false, w.getMessage, false, false, false, w.get_playing_file, true,
          some (1, 2, 3, 4)⟩).1 = "IP 1.2.3.4" := by
  refine ⟨?_, ?_, ?_⟩
  · unfold get_status
    by_cases h1 : w.hasMessage <;> simp only [h1, if_true, if_false, Bool.false_eq_true]
    by_cases h2 : w.is_halted <;> simp only [h2, if_true, if_false, Bool.false_eq_true]
    by_cases h3 : w.is_suspended <;> simp only [h3, if_true, if_false, Bool.false_eq_true]
    by_cases h4 : w.is_playing <;> simp only [h4, if_true, if_false, Bool.false_eq_true]
    cases h5 : w.conveyor_is_idle
    · simp
    · simp only [Bool.not_true, Bool.false_eq_true, if_false, Bool.true_eq_false]
      cases h6 : w.network with
      | none => simp [get_network]
      | some q =>
        obtain ⟨a, b, c, d⟩ := q
        simp only [get_network, fmt_ip_take]
        simp only [fmt_ip, fmt_d_ofNat]
  · simp [get_status]
  · simp only [get_status, Bool.false_eq_true, if_false, Bool.not_true, get_network]
    cases ipstr <;> decide


/-- C10. The text "IP a.b.c.d" never exceeds 18 characters, so it fits the
20-byte local buffer and a freshly allocated `ipstr`; but the allocation made at
the first success (here 11 bytes for "IP 0.0.0.0") is reused unchecked, and a
later, longer address ("IP 192.168.1.100", 17 bytes with its terminator) is
copied past its end. -/
theorem get_network_reuse_overflows :
    (∀ a b c d : Nat, (fmt_ip a b c d).length ≤ 18 ∧
      (get_network ipstr_new (some (a, b, c, d))).buf_ok = true ∧
      (get_network ipstr_new (some (a, b, c, d))).copy_ok = true) ∧
    (get_network ipstr_new (some (0, 0, 0, 0))).ipstr = some ⟨11, "IP 0.0.0.0"⟩ ∧
    (get_network (some ⟨11, "IP 0.0.0.0"⟩) (some (192, 168, 1, 100))).ret
      = some "IP 192.168.1.100" ∧
    (get_network (some ⟨11, "IP 0.0.0.0"⟩) (some (192, 168, 1, 100))).ipstr
      = some ⟨11, "IP 192.168.1.100"⟩ ∧
    (get_network (some ⟨11, "IP 0.0.0.0"⟩) (some (192, 168, 1, 100))).copy_ok = false := by
  refine ⟨?_, by decide, by decide, by decide, by decide⟩
  intro a b c d
  have h := fmt_ip_length a b c d
  refine ⟨h, ?_, ?_⟩
  · simp only [get_network, ipstr_new, decide_eq_true_eq]; omega
  · simp only [get_network, ipstr_new, decide_eq_true_eq, String.length, List.length_take]; omega

/-- C7 (as stated, refuted). With the kernel halted, row 3 of the text display
is the whole 20-character status "HALTED Reset or M999": it is longer than 19
characters and is not the 19-character truncation. -/
theorem display_menu_line_3_halted_not_truncated :
    (get_status none ⟨false, "", true, false, false, "", true, none⟩).1 = "HALTED Reset or M999" ∧
    display_menu_line_3 none ⟨false, "", true, false, false, "", true, none⟩
      = "HALTED Reset or M999" ∧
    ¬ ((display_menu_line_3 none ⟨false, "", true, false, false, "", true, none⟩).length ≤ 19) ∧
    display_menu_line_3 none ⟨false, "", true, false, false, "", true, none⟩
      ≠ String.mk ("HALTED Reset or M999".data.take 19) := by
  decide

/-- C7 (amended). Row 3 of the text display is the status right-justified in a
field of minimum width 19: it is the status preceded by `19 - length` spaces, so
it has `max 19 length` characters and is the whole, untruncated status when that
has 19 characters or more. The graphics renderer is the one that prints at most
the first 19 characters of the status. -/
theorem display_menu_line_3_pads (ipstr : Option IpBuf) (w : StatusWorld) :
    display_menu_line_3 ipstr w
      = String.mk (List.replicate (19 - (get_status ipstr w).1.length) ' ' ++
          (get_status ipstr w).1.data) ∧
    (display_menu_line_3 ipstr w).length = max 19 (get_status ipstr w).1.length ∧
    (19 ≤ (get_status ipstr w).1.length → display_menu_line_3 ipstr w = (get_status ipstr w).1) ∧
    draw_graphics_status ipstr w = String.mk ((get_status ipstr w).1.data.take 19) ∧
    (draw_graphics_status ipstr w).length ≤ 19 := by
  refine ⟨rfl, ?_, ?_, rfl, ?_⟩
  · simp only [display_menu_line_3, fmt_19s, String.length, padLeft_length]
  · intro h
    simp only [display_menu_line_3, fmt_19s, padLeft]
    have h0 : 19 - (get_status ipstr w).1.data.length = 0 := Nat.sub_eq_zero_of_le h
    rw [h0]; rfl
  · simp only [draw_graphics_status, fmt_p19s, String.length, List.length_take]; omega

theorem toDigitsCore_eq_digits (fuel : Nat) : ∀ (n : Nat) (ds : List Char), 0 < n → n ≤ fuel →
    Nat.toDigitsCore 10 fuel n ds = ((Nat.digits 10 n).reverse.map Nat.digitChar) ++ ds := by
  induction fuel with
  | zero => intro n ds h1 h2; omega
  | succ f ih =>
    intro n ds h1 h2
    have hd : Nat.digits 10 n = (n % 10) :: Nat.digits 10 (n / 10) :=
      Nat.digits_def' (by norm_num) h1
    simp only [Nat.toDigitsCore]
    by_cases h0 : n / 10 = 0
    · simp [h0, hd]
    · rw [if_neg h0, ih (n / 10) _ (Nat.pos_of_ne_zero h0) (by omega), hd]
      simp

theorem fmt_u_eq_digits (n : Nat) (h : 0 < n) :
    fmt_u n = (Nat.digits 10 n).reverse.map Nat.digitChar := by
  unfold fmt_u Nat.toDigits
  rw [toDigitsCore_eq_digits (n + 1) n [] h (by omega)]; simp

theorem digitChar_val : ∀ d, d < 10 → (Nat.digitChar d).toNat - 48 = d := by decide

theorem digitChar_isDigit : ∀ d, d < 10 → (Nat.digitChar d).isDigit = true := by decide

theorem dec_value_snoc (l : List Char) (c : Char) :
    dec_value (l ++ [c]) = 10 * dec_value l + (c.toNat - 48) := by
  simp [dec_value, List.foldl_append]

theorem dec_value_digits (ds : List Nat) (h : ∀ d ∈ ds, d < 10) :
    dec_value (ds.reverse.map Nat.digitChar) = Nat.ofDigits 10 ds := by
  induction ds with
  | nil => rfl
  | cons d tl ih =>
    have h1 := ih (fun x hx => h x (List.mem_cons_of_mem _ hx))
    have h2 := digitChar_val d (h d (List.mem_cons_self _ _))
    rw [List.reverse_cons, List.map_append, List.map_singleton, dec_value_snoc, h1, h2,
      Nat.ofDigits_cons]
    omega

theorem dec_value_fmt_u (n : Nat) : dec_value (fmt_u n) = n := by
  rcases Nat.eq_zero_or_pos n with h | h
  · subst h; decide
  · rw [fmt_u_eq_digits n h, dec_value_digits _ (fun d hd => Nat.digits_lt_base (by norm_num) hd),
      Nat.ofDigits_digits]

theorem fmt_u_isDigit (n : Nat) : ∀ c ∈ fmt_u n, c.isDigit = true := by
  rcases Nat.eq_zero_or_pos n with h | h
  · subst h; decide
  · rw [fmt_u_eq_digits n h]
    intro c hc
    simp only [List.mem_map, List.mem_reverse] at hc
    obtain ⟨d, hd, rfl⟩ := hc
    exact digitChar_isDigit d (Nat.digits_lt_base (by norm_num) hd)

theorem fmt_u_length_pos (n : Nat) : 1 ≤ (fmt_u n).length := by
  rcases Nat.eq_zero_or_pos n with h | h
  · subst h; decide
  · rw [fmt_u_eq_digits n h, List.length_map, List.length_reverse]
    have : Nat.digits 10 n ≠ [] := Nat.digits_ne_nil_iff_ne_zero.mpr (by omega)
    exact List.length_pos.mpr this

theorem dec_value_zeros (k : Nat) (l : List Char) :
    dec_value (List.replicate k '0' ++ l) = dec_value l := by
  induction k with
  | zero => simp
  | succ k ih =>
    rw [List.replicate_succ, List.cons_append]
    simpa [dec_value] using ih

theorem dec_value_fmt_02u (n : Nat) : dec_value (fmt_02u n) = n := by
  rw [fmt_02u, padLeft, dec_value_zeros, dec_value_fmt_u]

theorem fmt_02u_isDigit (n : Nat) : ∀ c ∈ fmt_02u n, c.isDigit = true := by
  intro c hc
  simp only [fmt_02u, padLeft, List.mem_append] at hc
  rcases hc with hc | hc
  · rw [List.eq_of_mem_replicate hc]; decide
  · exact fmt_u_isDigit n c hc

theorem fmt_02u_length (n : Nat) : (fmt_02u n).length = max 2 (fmt_u n).length := by
  rw [fmt_02u, padLeft_length]


theorem split_first {c : Char} : ∀ {a a2 b b2 : List Char}, c ∉ a → c ∉ a2 →
    a ++ c :: b = a2 ++ c :: b2 → a = a2 ∧ b = b2 := by
  intro a
  induction a with
  | nil =>
    intro a2 b b2 _ h2 h
    cases a2 with
    | nil => simpa using h
    | cons y t =>
      simp only [List.nil_append, List.cons_append, List.cons.injEq] at h
      exact absurd (h.1 ▸ List.mem_cons_self _ _) h2
  | cons x t ih =>
    intro a2 b b2 h1 h2 h
    cases a2 with
    | nil =>
      simp only [List.nil_append, List.cons_append, List.cons.injEq] at h
      exact absurd (h.1 ▸ List.mem_cons_self _ _) h1
    | cons y t2 =>
      simp only [List.cons_append, List.cons.injEq] at h
      have := ih (fun hc => h1 (List.mem_cons_of_mem _ hc))
        (fun hc => h2 (List.mem_cons_of_mem _ hc)) h.2
      exact ⟨by rw [h.1, this.1], this.2⟩

theorem colon_not_mem_fmt_02u (n : Nat) : ':' ∉ fmt_02u n := by
  intro h
  have := fmt_02u_isDigit n ':' h
  exact absurd this (by decide)

theorem space_not_mem_fmt_02u (n : Nat) : ' ' ∉ fmt_02u n := by
  intro h
  have := fmt_02u_isDigit n ' ' h
  exact absurd this (by decide)

theorem fmt_elapsed_fields_inj (h m s h2 m2 s2 : Nat) (tl tl2 : List Char)
    (e : fmt_02u h ++ ':' :: (fmt_02u m ++ ':' :: (fmt_02u s ++ ' ' :: tl))
       = fmt_02u h2 ++ ':' :: (fmt_02u m2 ++ ':' :: (fmt_02u s2 ++ ' ' :: tl2))) :
    h = h2 ∧ m = m2 ∧ s = s2 := by
  obtain ⟨e1, r1⟩ := split_first (colon_not_mem_fmt_02u h) (colon_not_mem_fmt_02u h2) e
  obtain ⟨e2, r2⟩ := split_first (colon_not_mem_fmt_02u m) (colon_not_mem_fmt_02u m2) r1
  obtain ⟨e3, _⟩ := split_first (space_not_mem_fmt_02u s) (space_not_mem_fmt_02u s2) r2
  refine ⟨?_, ?_, ?_⟩
  · rw [← dec_value_fmt_02u h, e1, dec_value_fmt_02u]
  · rw [← dec_value_fmt_02u m, e2, dec_value_fmt_02u]
  · rw [← dec_value_fmt_02u s, e3, dec_value_fmt_02u]

theorem fmt_elapsed_inj_tail (t t2 : Nat) (tl tl2 : List Char)
    (e : fmt_elapsed t ++ ' ' :: tl = fmt_elapsed t2 ++ ' ' :: tl2) : t = t2 := by
  simp only [fmt_elapsed, List.append_assoc, List.cons_append] at e
  obtain ⟨h1, h2, h3⟩ := fmt_elapsed_fields_inj _ _ _ _ _ _ _ _ e
  omega

theorem fmt_elapsed_inj (t t2 : Nat) (e : fmt_elapsed t = fmt_elapsed t2) : t = t2 :=
  fmt_elapsed_inj_tail t t2 [] [] (by rw [e])

theorem percent_not_mem_fmt_3d (i : Int) : '%' ∉ fmt_3d i := by
  intro h
  simp only [fmt_3d, padLeft, List.mem_append] at h
  rcases h with h | h
  · exact absurd (List.eq_of_mem_replicate h) (by decide)
  · unfold fmt_d at h
    split at h
    · rcases List.mem_cons.mp h with h | h
      · exact absurd h (by decide)
      · exact absurd (fmt_u_isDigit _ _ h) (by decide)
    · exact absurd (fmt_u_isDigit _ _ h) (by decide)

theorem display_menu_line_2_inj (s s2 : State) (e : display_menu_line_2 s = display_menu_line_2 s2) :
    s.elapsed_time = s2.elapsed_time := by
  have e2 := congrArg String.data e
  simp only [display_menu_line_2, List.append_assoc, List.cons_append, List.nil_append] at e2
  obtain ⟨_, r⟩ := split_first (percent_not_mem_fmt_3d _) (percent_not_mem_fmt_3d _) e2
  simp only [List.cons.injEq, true_and] at r
  exact fmt_elapsed_inj_tail _ _ _ _ r

theorem fmt_02u_length_two (n : Nat) (h : n < 100) : (fmt_02u n).length = 2 := by
  have h1 := fmt_u_length_le n 2 (by norm_num) (by omega)
  have h2 := fmt_u_length_pos n
  rw [fmt_02u_length]; omega

/-- C6. Both renderers print the elapsed time as the three fields `t / 3600`,
`(t % 3600) / 60`, `t % 60`, each in decimal, zero-padded to at least two digits,
separated by ':'. The minute and second fields are below 60 and the fields
recombine to `t`, so either printed text determines `t`; for `t < 360000` the
time text has exactly 8 characters and `t = 3661` prints as "01:01:01". -/
theorem elapsed_time_format (s : State) :
    draw_graphics_elapsed s
      = String.mk (fmt_02u (s.elapsed_time / 3600) ++ ':' ::
          fmt_02u (s.elapsed_time % 3600 / 60) ++ ':' :: fmt_02u (s.elapsed_time % 60)) ∧
    display_menu_line_2 s
      = String.mk (fmt_3d s.current_speed ++ ['%', ' ', ' '] ++ (draw_graphics_elapsed s).data ++
          [' ', ' '] ++ fmt_3u s.sd_pcnt_played ++ ['%']) ∧
    (∀ n : Nat, fmt_02u n = List.replicate (2 - (fmt_u n).length) '0' ++ fmt_u n ∧
      2 ≤ (fmt_02u n).length ∧ (∀ c ∈ fmt_02u n, c.isDigit = true) ∧ dec_value (fmt_02u n) = n) ∧
    s.elapsed_time % 3600 / 60 < 60 ∧ s.elapsed_time % 60 < 60 ∧
    3600 * (s.elapsed_time / 3600) + 60 * (s.elapsed_time % 3600 / 60) + s.elapsed_time % 60
      = s.elapsed_time ∧
    (∀ s2 : State, draw_graphics_elapsed s2 = draw_graphics_elapsed s →
      s2.elapsed_time = s.elapsed_time) ∧
    (∀ s2 : State, display_menu_line_2 s2 = display_menu_line_2 s →
      s2.elapsed_time = s.elapsed_time) ∧
    (s.elapsed_time < 360000 → (draw_graphics_elapsed s).length = 8) ∧
    (s.elapsed_time = 3661 → draw_graphics_elapsed s = "01:01:01") := by
  refine ⟨rfl, rfl, ?_, by omega, by omega, by omega, ?_, ?_, ?_, ?_⟩
  · intro n
    refine ⟨rfl, ?_, fmt_02u_isDigit n, dec_value_fmt_02u n⟩
    rw [fmt_02u_length]; omega
  · intro s2 e
    exact fmt_elapsed_inj _ _ (congrArg String.data e)
  · intro s2 e
    exact display_menu_line_2_inj _ _ e
  · intro h
    have h1 := fmt_02u_length_two (s.elapsed_time / 3600) (by omega)
    have h2 := fmt_02u_length_two (s.elapsed_time % 3600 / 60) (by omega)
    have h3 := fmt_02u_length_two (s.elapsed_time % 60) (by omega)
    simp only [draw_graphics_elapsed, fmt_elapsed, String.length, List.length_append,
      List.length_cons]
    omega
  · intro h
    simp only [draw_graphics_elapsed, h]
    decide


/-- C4. `on_main_loop` emits exactly one command, "M220" with parameter S equal
to `current_speed`, and clears `issue_change_speed` when that flag is set, and
emits no speed command otherwise; `current_speed`, `speed_changed` and
`update_counts` are unchanged and the base screen's `on_main_loop` is the last
call made. Two consecutive calls emit at most one command. -/
theorem on_main_loop_emits_once (s : State) :
    (on_main_loop s).2
      = (if s.issue_change_speed then [Effect.send_gcode "M220" 'S' s.current_speed] else []) ++
          [Effect.base_on_main_loop] ∧
    speed_commands (on_main_loop s).2 = (if s.issue_change_speed then [s.current_speed] else []) ∧
    (on_main_loop s).1.issue_change_speed = false ∧
    (on_main_loop s).1.current_speed = s.current_speed ∧
    (on_main_loop s).1.speed_changed = s.speed_changed ∧
    (on_main_loop s).1.update_counts = s.update_counts ∧
    (on_main_loop s).2.getLast? = some Effect.base_on_main_loop ∧
    (speed_commands (run s [Call.main_loop, Call.main_loop]).2).length ≤ 1 := by
  cases h : s.issue_change_speed <;>
    simp [on_main_loop, set_speed, speed_commands, run, step, h]

theorem pair_filter (n q : Nat) (hq : q < n) :
    [q, q + 1].filter (fun i => decide (i < n)) = if q + 1 < n then [q, q + 1] else [q] := by
  by_cases h : q + 1 < n <;> simp [List.filter_cons, hq, h]

theorem pair_index_lt (n c : Nat) (h : 1 ≤ n) :
    2 * (if n ≤ 2 then 0 else (c / 100) % ((n + 1) / 2)) < n := by
  split_ifs with h2
  · omega
  · have := Nat.mod_lt (c / 100) (show (n + 1) / 2 > 0 by omega)
    omega

theorem display_menu_line_0_eq (tm : List Nat) (c : Nat) (h : 1 ≤ tm.length) :
    display_menu_line_0 tm c
      = ([2 * (if tm.length ≤ 2 then 0 else (c / 100) % ((tm.length + 1) / 2)),
          2 * (if tm.length ≤ 2 then 0 else (c / 100) % ((tm.length + 1) / 2)) + 1].filter
            (fun i => decide (i < tm.length))).map (fun i => (i, tm[i]?)) := by
  have hq := pair_index_lt tm.length c h
  rw [pair_filter _ _ hq]
  unfold display_menu_line_0
  have hpos : tm.length > 0 := h
  simp only [hpos, if_true]
  by_cases h2 : tm.length ≤ 2
  · have h2n : ¬ tm.length > 2 := by omega
    simp only [h2n, h2, if_true, if_false]
    by_cases h3 : 1 + 0 * 2 > tm.length - 1
    · have : tm.length = 1 := by omega
      simp [this]
    · have : tm.length = 2 := by omega
      simp [this]
  · have h2n : tm.length > 2 := by omega
    simp only [h2n, h2, if_true, if_false] at hq ⊢
    generalize (c / 100) % ((tm.length + 1) / 2) = p at hq
    have hp0 : ¬ (0 + p * 2 > tm.length - 1) := by omega
    simp only [hp0, if_false]
    have e0 : 0 + p * 2 = 2 * p := by omega
    have e1 : 1 + p * 2 = 2 * p + 1 := by omega
    rw [e0, e1]
    by_cases h3 : 2 * p + 1 > tm.length - 1
    · have h4 : ¬ (2 * p + 1 < tm.length) := by omega
      simp [h3, h4]
    · have h4 : 2 * p + 1 < tm.length := by omega
      simp [h3, h4]

/-- C5. Row 0 of the text display, for a controller count `n ≥ 1` and tick
counter `c`, reads exactly the controllers at the positions `2p`, `2p + 1` that
are below `n`, in that order, where `p = 0` when `n ≤ 2` and
`p = (c / 100) mod ceil(n / 2)` otherwise (`ceil(n / 2)` is `(n + 1) / 2`).
Every read is inside the list, at least one controller is shown, the pair only
depends on `c / 100`, the sequence has period `100 * ceil(n / 2)`, and with five
controllers the pairs are (0,1), (2,3), (4) in rotation with period 300. -/
theorem display_menu_line_0_pairs (tm : List Nat) (c : Nat) (h : 1 ≤ tm.length) :
    display_menu_line_0 tm c
      = ([2 * (if tm.length ≤ 2 then 0 else (c / 100) % ((tm.length + 1) / 2)),
          2 * (if tm.length ≤ 2 then 0 else (c / 100) % ((tm.length + 1) / 2)) + 1].filter
            (fun i => decide (i < tm.length))).map (fun i => (i, tm[i]?)) ∧
    (tm.length ≤ 2 * ((tm.length + 1) / 2) ∧ 2 * ((tm.length + 1) / 2) ≤ tm.length + 1) ∧
    (∀ e ∈ display_menu_line_0 tm c, e.1 < tm.length ∧ e.2.isSome = true) ∧
    display_menu_line_0 tm c ≠ [] ∧
    (∀ c2 : Nat, c2 / 100 = c / 100 → display_menu_line_0 tm c2 = display_menu_line_0 tm c) ∧
    display_menu_line_0 tm (c + 100 * ((tm.length + 1) / 2)) = display_menu_line_0 tm c ∧
    (∀ a0 a1 a2 a3 a4 k : Nat,
      display_menu_line_0 [a0, a1, a2, a3, a4] k
        = (if k % 300 < 100 then [(0, some a0), (1, some a1)]
           else if k % 300 < 200 then [(2, some a2), (3, some a3)]
           else [(4, some a4)])) := by
  have heq := display_menu_line_0_eq tm c h
  refine ⟨heq, by omega, ?_, ?_, ?_, ?_, ?_⟩
  · intro e he
    rw [heq] at he
    simp only [List.mem_map, List.mem_filter, decide_eq_true_eq] at he
    obtain ⟨i, ⟨_, hi⟩, rfl⟩ := he
    simp [hi]
  · rw [heq, pair_filter _ _ (pair_index_lt tm.length c h)]
    split_ifs <;> simp
  · intro c2 hc
    rw [heq, display_menu_line_0_eq tm c2 h, hc]
  · rw [heq, display_menu_line_0_eq tm _ h]
    have : (c + 100 * ((tm.length + 1) / 2)) / 100 = c / 100 + (tm.length + 1) / 2 := by omega
    rw [this, Nat.add_mod_right]
  · intro a0 a1 a2 a3 a4 k
    have h3 : k / 100 % 3 = (k % 300) / 100 := by omega
    simp only [display_menu_line_0, List.length_cons, List.length_nil]
    norm_num
    rw [h3]
    have h4 : k % 300 < 300 := Nat.mod_lt _ (by norm_num)
    generalize k % 300 = r at h4
    by_cases c1 : r < 100
    · have : r / 100 = 0 := by omega
      simp [c1, this]
    · by_cases c2 : r < 200
      · have : r / 100 = 1 := by omega
        simp [c1, c2, this]
      · have : r / 100 = 2 := by omega
        simp [c1, c2, this]

/-- Witness for C5: three controllers at tick 150 show the lone third one. -/
theorem display_menu_line_0_pairs_witness :
    1 ≤ [7, 8, 9].length ∧ display_menu_line_0 [7, 8, 9] 150 = [(2, some 9)] :=
  ⟨by decide, by
    have h := (display_menu_line_0_pairs [7, 8, 9] 150 (by decide)).1
    rw [h]; decide⟩


/-! ## The lamp loop -/

theorem lamp_step_bed_on (a : Lamps) (c : pad_temperature) :
    (lamp_step a c).bed_on
      = (a.bed_on || decide (front c.designator = 'B' ∧ c.target_temperature > 0)) := by
  unfold lamp_step
  by_cases h1 : c.current_temperature > 50 <;> by_cases h2 : front c.designator = 'B' <;>
    by_cases h3 : c.target_temperature > 0 <;> by_cases h4 : front c.designator = 'T' <;>
    simp [h1, h2, h3, h4]

theorem lamp_step_hotend_on (a : Lamps) (c : pad_temperature) :
    (lamp_step a c).hotend_on
      = (a.hotend_on || decide (front c.designator = 'T' ∧ c.target_temperature > 0)) := by
  unfold lamp_step
  by_cases h1 : c.current_temperature > 50 <;> by_cases h2 : front c.designator = 'B' <;>
    by_cases h3 : c.target_temperature > 0 <;> by_cases h4 : front c.designator = 'T' <;>
    simp [h1, h2, h3, h4]

theorem lamp_step_is_hot (a : Lamps) (c : pad_temperature) :
    (lamp_step a c).is_hot = (a.is_hot || decide (c.current_temperature > 50)) := by
  unfold lamp_step
  by_cases h1 : c.current_temperature > 50 <;> by_cases h2 : front c.designator = 'B' <;>
    by_cases h3 : c.target_temperature > 0 <;> by_cases h4 : front c.designator = 'T' <;>
    simp [h1, h2, h3, h4]

theorem lamp_step_heon (a : Lamps) (c : pad_temperature) :
    (lamp_step a c).heon
      = (if front c.designator = 'T' ∧ c.target_temperature > 0
          then (a.heon ||| a.hemsk) % 256 else a.heon) := by
  unfold lamp_step
  by_cases h1 : c.current_temperature > 50 <;> by_cases h2 : front c.designator = 'B' <;>
    by_cases h3 : c.target_temperature > 0 <;> by_cases h4 : front c.designator = 'T' <;>
    simp [h1, h2, h3, h4]

theorem lamp_step_hemsk (a : Lamps) (c : pad_temperature) :
    (lamp_step a c).hemsk
      = (if front c.designator = 'T' then (a.hemsk <<< 1) % 256 else a.hemsk) := by
  unfold lamp_step
  by_cases h1 : c.current_temperature > 50 <;> by_cases h2 : front c.designator = 'B' <;>
    by_cases h3 : c.target_temperature > 0 <;> by_cases h4 : front c.designator = 'T' <;>
    simp [h1, h2, h3, h4]

theorem foldl_bed_on (cs : List pad_temperature) : ∀ a : Lamps,
    (cs.foldl lamp_step a).bed_on = true ↔
      a.bed_on = true ∨ ∃ c ∈ cs, front c.designator = 'B' ∧ c.target_temperature > 0 := by
  induction cs with
  | nil => intro a; simp
  | cons c cs ih =>
    intro a
    rw [List.foldl_cons, ih, lamp_step_bed_on]
    simp only [Bool.or_eq_true, decide_eq_true_eq, List.mem_cons, exists_eq_or_imp]
    tauto

theorem foldl_hotend_on (cs : List pad_temperature) : ∀ a : Lamps,
    (cs.foldl lamp_step a).hotend_on = true ↔
      a.hotend_on = true ∨ ∃ c ∈ cs, front c.designator = 'T' ∧ c.target_temperature > 0 := by
  induction cs with
  | nil => intro a; simp
  | cons c cs ih =>
    intro a
    rw [List.foldl_cons, ih, lamp_step_hotend_on]
    simp only [Bool.or_eq_true, decide_eq_true_eq, List.mem_cons, exists_eq_or_imp]
    tauto

theorem foldl_is_hot (cs : List pad_temperature) : ∀ a : Lamps,
    (cs.foldl lamp_step a).is_hot = true ↔
      a.is_hot = true ∨ ∃ c ∈ cs, c.current_temperature > 50 := by
  induction cs with
  | nil => intro a; simp
  | cons c cs ih =>
    intro a
    rw [List.foldl_cons, ih, lamp_step_is_hot]
    simp only [Bool.or_eq_true, decide_eq_true_eq, List.mem_cons, exists_eq_or_imp]
    tauto

theorem testBit_mask (j k : Nat) : (2 ^ j % 256).testBit k = true ↔ j = k ∧ k < 8 := by
  have : (256 : Nat) = 2 ^ 8 := by norm_num
  rw [this, Nat.testBit_mod_two_pow, Nat.testBit_two_pow]
  simp only [Bool.and_eq_true, decide_eq_true_eq]
  tauto

theorem mask_lt (j : Nat) : 2 ^ j % 256 < 256 := Nat.mod_lt _ (by norm_num)

theorem mask_shift (j : Nat) : ((2 ^ j % 256) <<< 1) % 256 = 2 ^ (j + 1) % 256 := by
  have h : 2 ^ (j + 1) = 2 ^ j * 2 := pow_succ 2 j
  rw [Nat.shiftLeft_eq, h, pow_one]
  generalize 2 ^ j = x
  omega

theorem foldl_heon (cs : List pad_temperature) : ∀ (a : Lamps) (j : Nat),
    a.hemsk = 2 ^ j % 256 → a.heon < 256 → ∀ k : Nat,
    ((cs.foldl lamp_step a).heon.testBit k = true ↔
      a.heon.testBit k = true ∨
        (k < 8 ∧ j ≤ k ∧ ∃ c, (cs.filter (fun c => decide (front c.designator = 'T')))[k - j]? = some c ∧
          c.target_temperature > 0)) := by
  induction cs with
  | nil => intro a j _ _ k; simp
  | cons c cs ih =>
    intro a j hm hh k
    rw [List.foldl_cons]
    by_cases hT : front c.designator = 'T'
    · have hm2 : (lamp_step a c).hemsk = 2 ^ (j + 1) % 256 := by
        rw [lamp_step_hemsk, if_pos hT, hm, mask_shift]
      have hor : a.heon ||| a.hemsk < 256 := by
        have : (256 : Nat) = 2 ^ 8 := by norm_num
        rw [this]
        exact Nat.or_lt_two_pow (by rw [← this]; exact hh) (by rw [← this, hm]; exact mask_lt j)
      have hh2 : (lamp_step a c).heon < 256 := by
        rw [lamp_step_heon]; split_ifs
        · exact Nat.mod_lt _ (by norm_num)
        · exact hh
      rw [ih _ (j + 1) hm2 hh2 k, List.filter_cons_of_pos (by simpa using hT)]
      have hbit : (lamp_step a c).heon.testBit k = true ↔
          a.heon.testBit k = true ∨ (c.target_temperature > 0 ∧ j = k ∧ k < 8) := by
        rw [lamp_step_heon]
        by_cases ht : c.target_temperature > 0
        · rw [if_pos ⟨hT, ht⟩, Nat.mod_eq_of_lt hor, Nat.testBit_or, Bool.or_eq_true, hm,
            testBit_mask]
          tauto
        · rw [if_neg (fun h => ht h.2)]
          tauto
      rw [hbit]
      constructor
      · rintro ((h | ⟨ht, rfl, h8⟩) | ⟨h8, hj, c2, hc2, ht⟩)
        · exact Or.inl h
        · exact Or.inr ⟨h8, le_refl _, c, by simp, ht⟩
        · refine Or.inr ⟨h8, by omega, c2, ?_, ht⟩
          have : k - j = (k - (j + 1)) + 1 := by omega
          rw [this, List.getElem?_cons_succ]; exact hc2
      · rintro (h | ⟨h8, hj, c2, hc2, ht⟩)
        · exact Or.inl (Or.inl h)
        · rcases Nat.eq_or_lt_of_le hj with rfl | hlt
          · simp only [Nat.sub_self, List.getElem?_cons_zero, Option.some.injEq] at hc2
            subst hc2
            exact Or.inl (Or.inr ⟨ht, rfl, h8⟩)
          · have : k - j = (k - (j + 1)) + 1 := by omega
            rw [this, List.getElem?_cons_succ] at hc2
            exact Or.inr ⟨h8, hlt, c2, hc2, ht⟩
    · have hm2 : (lamp_step a c).hemsk = 2 ^ j % 256 := by
        rw [lamp_step_hemsk, if_neg hT, hm]
      have he : (lamp_step a c).heon = a.heon := by
        rw [lamp_step_heon, if_neg (fun h => hT h.1)]
      rw [ih _ j hm2 (by rw [he]; exact hh) k, he, List.filter_cons_of_neg (by simpa using hT)]

theorem foldl_lamps_congr (cs : List pad_temperature) : ∀ a b : Lamps,
    a.bed_on = b.bed_on → a.hotend_on = b.hotend_on → a.heon = b.heon → a.hemsk = b.hemsk →
    (cs.foldl lamp_step a).bed_on = (cs.foldl lamp_step b).bed_on ∧
    (cs.foldl lamp_step a).hotend_on = (cs.foldl lamp_step b).hotend_on ∧
    (cs.foldl lamp_step a).heon = (cs.foldl lamp_step b).heon ∧
    (cs.foldl lamp_step a).hemsk = (cs.foldl lamp_step b).hemsk := by
  induction cs with
  | nil => intro a b h1 h2 h3 h4; exact ⟨h1, h2, h3, h4⟩
  | cons c cs ih =>
    intro a b h1 h2 h3 h4
    rw [List.foldl_cons, List.foldl_cons]
    apply ih
    · rw [lamp_step_bed_on, lamp_step_bed_on, h1]
    · rw [lamp_step_hotend_on, lamp_step_hotend_on, h2]
    · rw [lamp_step_heon, lamp_step_heon, h3, h4]
    · rw [lamp_step_hemsk, lamp_step_hemsk, h4]

theorem heater_lamps_insert (l1 l2 : List pad_temperature) (x : pad_temperature)
    (hB : front x.designator ≠ 'B') (hT : front x.designator ≠ 'T') :
    (heater_lamps (l1 ++ x :: l2)).bed_on = (heater_lamps (l1 ++ l2)).bed_on ∧
    (heater_lamps (l1 ++ x :: l2)).hotend_on = (heater_lamps (l1 ++ l2)).hotend_on ∧
    (heater_lamps (l1 ++ x :: l2)).heon = (heater_lamps (l1 ++ l2)).heon := by
  unfold heater_lamps
  rw [List.foldl_append, List.foldl_append, List.foldl_cons]
  have h := foldl_lamps_congr l2
    (lamp_step (List.foldl lamp_step ⟨false, false, false, 0, 1⟩ l1) x)
    (List.foldl lamp_step ⟨false, false, false, 0, 1⟩ l1)
    (by rw [lamp_step_bed_on]; simp [hB])
    (by rw [lamp_step_hotend_on]; simp [hT])
    (by rw [lamp_step_heon]; simp [hT])
    (by rw [lamp_step_hemsk]; simp [hT])
  exact ⟨h.1, h.2.1, h.2.2.1⟩


theorem slow_path_temp_controllers (s : State) (w : World) :
    (speed_commit (get_current_status (get_sd_play_info s w).1 w) w).1.temp_controllers
      = s.temp_controllers := by
  unfold speed_commit get_current_status get_sd_play_info
  cases w.progress <;> cases w.fan <;> simp only <;> split_ifs <;> rfl

/-- C8 (as stated, refuted). A controller whose designator starts with neither
'B' nor 'T' is not ignored by the "hot" lamp: with a cold hot-end alone the
slow path of `on_refresh` switches LED_HOT off, and with a controller "P"
reading 60 degrees added to the list it switches LED_HOT on. -/
theorem hot_lamp_counts_other_controller :
    front "P" ≠ 'B' ∧ front "P" ≠ 'T' ∧
    (heater_lamps [⟨"T", 20, 0⟩]).is_hot = false ∧
    (heater_lamps [⟨"T", 20, 0⟩, ⟨"P", 60, 0⟩]).is_hot = true ∧
    Effect.setLed Led.LED_HOT false ∈
      (on_refresh ⟨false, false, 19, 100, 0, 0, false, false, 0, [1]⟩
        ⟨false, false, 0, 100, none, none, none,
          fun id => if id = 2 then ⟨"P", 60, 0⟩ else ⟨"T", 20, 0⟩, false, false⟩).2 ∧
    Effect.setLed Led.LED_HOT true ∈
      (on_refresh ⟨false, false, 19, 100, 0, 0, false, false, 0, [1, 2]⟩
        ⟨false, false, 0, 100, none, none, none,
          fun id => if id = 2 then ⟨"P", 60, 0⟩ else ⟨"T", 20, 0⟩, false, false⟩).2 := by
  decide

/-- C8 (amended). The lamp loop classifies each controller by the first
character of its designator: `bed_on` holds iff some controller starting with
'B' has target above 0, `hotend_on` iff some controller starting with 'T' has,
and bit `k` of the hot-end mask is set iff `k < 8` and the `k`-th controller
starting with 'T' has target above 0. A controller starting with neither letter
is ignored for the bed lamp, the hot-end lamp and the icon bits: inserting or
removing it changes none of them. The "hot" lamp is set iff any controller at
all reads above 50 degrees, so such a controller does count for it. The slow
path ends with the lamp writes computed from this loop. -/
theorem heater_lamps_classify (cs : List pad_temperature) :
    ((heater_lamps cs).bed_on = true ↔
      ∃ c ∈ cs, front c.designator = 'B' ∧ c.target_temperature > 0) ∧
    ((heater_lamps cs).hotend_on = true ↔
      ∃ c ∈ cs, front c.designator = 'T' ∧ c.target_temperature > 0) ∧
    (∀ k : Nat, (heater_lamps cs).heon.testBit k = true ↔
      k < 8 ∧ ∃ c, (cs.filter (fun c => decide (front c.designator = 'T')))[k]? = some c ∧
        c.target_temperature > 0) ∧
    ((heater_lamps cs).is_hot = true ↔ ∃ c ∈ cs, c.current_temperature > 50) ∧
    (∀ (l1 l2 : List pad_temperature) (x : pad_temperature), cs = l1 ++ l2 →
      front x.designator ≠ 'B' → front x.designator ≠ 'T' →
      (heater_lamps (l1 ++ x :: l2)).bed_on = (heater_lamps cs).bed_on ∧
      (heater_lamps (l1 ++ x :: l2)).hotend_on = (heater_lamps cs).hotend_on ∧
      (heater_lamps (l1 ++ x :: l2)).heon = (heater_lamps cs).heon ∧
      (heater_lamps (l1 ++ x :: l2)).is_hot
        = ((heater_lamps cs).is_hot || decide (x.current_temperature > 50))) ∧
    (∀ (s : State) (w : World), s.temp_controllers.map w.getTemperatures = cs →
      ∃ pre, (slow_path s w).2 = pre ++ lamp_effects (heater_lamps cs) (slow_path s w).1.fan_state w)
    := by
  refine ⟨?_, ?_, ?_, ?_, ?_, ?_⟩
  · unfold heater_lamps; rw [foldl_bed_on]; simp
  · unfold heater_lamps; rw [foldl_hotend_on]; simp
  · intro k
    unfold heater_lamps
    rw [foldl_heon cs _ 0 (by decide) (by decide) k]
    simp
  · unfold heater_lamps; rw [foldl_is_hot]; simp
  · intro l1 l2 x hcs hB hT
    subst hcs
    obtain ⟨h1, h2, h3⟩ := heater_lamps_insert l1 l2 x hB hT
    refine ⟨h1, h2, h3, ?_⟩
    rw [Bool.eq_iff_iff]
    unfold heater_lamps
    rw [foldl_is_hot, Bool.or_eq_true, foldl_is_hot]
    simp only [List.mem_append, List.mem_cons, decide_eq_true_eq, Bool.false_eq_true, false_or]
    constructor
    · rintro ⟨c, (h | rfl | h), hc⟩
      · exact Or.inl ⟨c, Or.inl h, hc⟩
      · exact Or.inr hc
      · exact Or.inl ⟨c, Or.inr h, hc⟩
    · rintro (⟨c, (h | h), hc⟩ | hx)
      · exact ⟨c, Or.inl h, hc⟩
      · exact ⟨c, Or.inr (Or.inr h), hc⟩
      · exact ⟨x, Or.inr (Or.inl rfl), hx⟩
  · intro s w hcs
    refine ⟨(get_sd_play_info s w).2 ++ [Effect.get_current_pos] ++
      (speed_commit (get_current_status (get_sd_play_info s w).1 w) w).2 ++ [Effect.redraw], ?_⟩
    simp only [slow_path, slow_path_temp_controllers, hcs]


/-! ## The speed-change state machine -/

theorem speed_commands_append (a b : List Effect) :
    speed_commands (a ++ b) = speed_commands a ++ speed_commands b := by
  induction a with
  | nil => rfl
  | cons e a ih => cases e <;> simp [speed_commands, ih]

theorem speed_commands_lamp_effects (l : Lamps) (f : Bool) (w : World) :
    speed_commands (lamp_effects l f w) = [] := by
  unfold lamp_effects
  simp only [speed_commands_append]
  split_ifs <;> rfl

theorem speed_commands_get_sd_play_info (s : State) (w : World) :
    speed_commands (get_sd_play_info s w).2 = [] := by
  unfold get_sd_play_info
  cases w.progress <;> rfl

theorem speed_commands_speed_input (s : State) (w : World) :
    speed_commands (speed_input s w).2 = [] := by
  simp only [speed_input]
  split_ifs <;> rfl

theorem speed_commands_speed_commit (s : State) (w : World) :
    speed_commands (speed_commit s w).2 = [] := by
  unfold speed_commit
  split_ifs <;> rfl

theorem speed_commands_slow_path (s : State) (w : World) :
    speed_commands (slow_path s w).2 = [] := by
  simp only [slow_path, speed_commands_append, speed_commands_get_sd_play_info,
    speed_commands_speed_commit, speed_commands_lamp_effects]
  rfl

theorem speed_commands_on_refresh (s : State) (w : World) :
    speed_commands (on_refresh s w).2 = [] := by
  simp only [on_refresh]
  split_ifs
  · rfl
  · simp only [speed_commands_append, speed_commands_speed_input, speed_commands_slow_path]
    rfl
  · exact speed_commands_speed_input s w

theorem speed_commands_on_enter (s : State) (w : World) :
    speed_commands (on_enter s w).2 = [] := by
  simp only [on_enter, speed_commands_append, speed_commands_get_sd_play_info]
  rfl

theorem speed_commands_on_main_loop (s : State) :
    speed_commands (on_main_loop s).2 = if s.issue_change_speed then [s.current_speed] else [] := by
  simp only [on_main_loop, set_speed]
  split_ifs <;> rfl

theorem get_sd_play_info_fields (s : State) (w : World) :
    (get_sd_play_info s w).1.speed_changed = s.speed_changed ∧
    (get_sd_play_info s w).1.issue_change_speed = s.issue_change_speed ∧
    (get_sd_play_info s w).1.current_speed = s.current_speed ∧
    (get_sd_play_info s w).1.update_counts = s.update_counts := by
  unfold get_sd_play_info
  cases w.progress <;> exact ⟨rfl, rfl, rfl, rfl⟩

theorem get_current_status_fields (s : State) (w : World) :
    (get_current_status s w).speed_changed = s.speed_changed ∧
    (get_current_status s w).issue_change_speed = s.issue_change_speed ∧
    (get_current_status s w).current_speed = s.current_speed ∧
    (get_current_status s w).update_counts = s.update_counts := by
  unfold get_current_status
  cases w.fan <;> exact ⟨rfl, rfl, rfl, rfl⟩

theorem speed_input_fields (s : State) (w : World) :
    (speed_input s w).1.speed_changed
      = (s.speed_changed || (w.control_value_change && decide (10 ≤ w.get_control_value))) ∧
    (speed_input s w).1.issue_change_speed = s.issue_change_speed ∧
    (speed_input s w).1.current_speed
      = (if w.control_value_change then max 10 w.get_control_value else s.current_speed) ∧
    (speed_input s w).1.update_counts = s.update_counts := by
  unfold speed_input
  cases hv : w.control_value_change
  · simp
  · by_cases h10 : w.get_control_value < 10
    · have h1 : ¬ (10 ≤ w.get_control_value) := by omega
      have h2 : max 10 w.get_control_value = 10 := by omega
      simp [h10, h1, h2]
    · have h1 : 10 ≤ w.get_control_value := by omega
      have h2 : max 10 w.get_control_value = w.get_control_value := by omega
      simp [h10, h1, h2]

theorem speed_commit_fields (s : State) (w : World) :
    (speed_commit s w).1.speed_changed = false ∧
    (speed_commit s w).1.issue_change_speed = (s.issue_change_speed || s.speed_changed) ∧
    (speed_commit s w).1.current_speed
      = (if s.speed_changed = false ∧ s.issue_change_speed = false
          then w.get_current_speed else s.current_speed) ∧
    (speed_commit s w).1.update_counts = s.update_counts := by
  unfold speed_commit
  cases hs : s.speed_changed <;> cases hi : s.issue_change_speed <;> simp [hs, hi]

theorem slow_path_fields (s : State) (w : World) :
    (slow_path s w).1.speed_changed = false ∧
    (slow_path s w).1.issue_change_speed = (s.issue_change_speed || s.speed_changed) ∧
    (slow_path s w).1.current_speed
      = (if s.speed_changed = false ∧ s.issue_change_speed = false
          then w.get_current_speed else s.current_speed) ∧
    (slow_path s w).1.update_counts = s.update_counts := by
  obtain ⟨a1, a2, a3, a4⟩ := get_sd_play_info_fields s w
  obtain ⟨b1, b2, b3, b4⟩ := get_current_status_fields (get_sd_play_info s w).1 w
  obtain ⟨c1, c2, c3, c4⟩ :=
    speed_commit_fields (get_current_status (get_sd_play_info s w).1 w) w
  simp only [slow_path]
  rw [c1, c2, c3, c4, b1, b2, b3, b4, a1, a2, a3, a4]
  exact ⟨rfl, rfl, rfl, rfl⟩

theorem on_refresh_click (s : State) (w : World) (hc : w.click = true) :
    on_refresh s w = (s, [Effect.enter_screen_parent]) := by
  simp [on_refresh, hc]

theorem on_refresh_fast (s : State) (w : World) (hc : w.click = false)
    (hf : ¬ (s.update_counts + 1) % counter_modulus % 20 = 0) :
    (on_refresh s w).1.update_counts = (s.update_counts + 1) % counter_modulus ∧
    (on_refresh s w).1.speed_changed
      = (s.speed_changed || (w.control_value_change && decide (10 ≤ w.get_control_value))) ∧
    (on_refresh s w).1.issue_change_speed = s.issue_change_speed ∧
    (on_refresh s w).1.current_speed
      = (if w.control_value_change then max 10 w.get_control_value else s.current_speed) := by
  obtain ⟨a1, a2, a3, a4⟩ := speed_input_fields s w
  unfold on_refresh
  simp only [hc, Bool.false_eq_true, if_false, a4, hf]
  exact ⟨trivial, a1, a2, a3⟩

theorem on_refresh_slow (s : State) (w : World) (hc : w.click = false)
    (hf : (s.update_counts + 1) % counter_modulus % 20 = 0) :
    (on_refresh s w).1.update_counts = (s.update_counts + 1) % counter_modulus ∧
    (on_refresh s w).1.speed_changed = false ∧
    (on_refresh s w).1.issue_change_speed
      = (s.issue_change_speed ||
          (s.speed_changed || (w.control_value_change && decide (10 ≤ w.get_control_value)))) ∧
    (on_refresh s w).1.current_speed
      = (if (s.speed_changed || (w.control_value_change && decide (10 ≤ w.get_control_value)))
              = false ∧ s.issue_change_speed = false
         then w.get_current_speed
         else if w.control_value_change then max 10 w.get_control_value else s.current_speed) := by
  obtain ⟨a1, a2, a3, a4⟩ := speed_input_fields s w
  unfold on_refresh
  simp only [hc, Bool.false_eq_true, if_false, a4, hf, if_true]
  obtain ⟨b1, b2, b3, b4⟩ := slow_path_fields
    { (speed_input s w).1 with update_counts := (s.update_counts + 1) % counter_modulus } w
  refine ⟨b4, b1, b2.trans ?_, b3.trans ?_⟩
  · show ((speed_input s w).1.issue_change_speed || (speed_input s w).1.speed_changed) = _
    rw [a1, a2]
  · show (if (speed_input s w).1.speed_changed = false ∧
        (speed_input s w).1.issue_change_speed = false
      then w.get_current_speed else (speed_input s w).1.current_speed) = _
    rw [a1, a2, a3]

theorem on_main_loop_fields (s : State) :
    (on_main_loop s).1.update_counts = s.update_counts ∧
    (on_main_loop s).1.speed_changed = s.speed_changed ∧
    (on_main_loop s).1.issue_change_speed = false ∧
    (on_main_loop s).1.current_speed = s.current_speed := by
  unfold on_main_loop
  cases h : s.issue_change_speed <;> simp [h]

theorem on_enter_fields (s : State) (w : World) :
    (on_enter s w).1.update_counts = s.update_counts ∧
    (on_enter s w).1.speed_changed = s.speed_changed ∧
    (on_enter s w).1.issue_change_speed = s.issue_change_speed ∧
    (on_enter s w).1.current_speed = w.get_current_speed := by
  obtain ⟨b1, b2, b3, b4⟩ := get_current_status_fields s w
  obtain ⟨a1, a2, a3, a4⟩ := get_sd_play_info_fields (get_current_status s w) w
  exact ⟨a4.trans b4, a1.trans b1, a2.trans b2, rfl⟩


/-- C3 (as stated, refuted). With no change flagged or pending and the robot at
100 percent, a move of the control to 5 is clamped but never committed: after
the rest of the 20-tick window and a main-loop call no command at all has been
sent and `current_speed` is back at 100; and when the move arrives on the slow
tick itself, `current_speed` is already 100, not 10, when `on_refresh` returns. -/
theorem clamped_move_is_not_committed :
    speed_commands (run ⟨false, false, 0, 100, 0, 0, false, false, 0, []⟩
      (Call.refresh (moved_world 100 5) :: List.replicate 19 (Call.refresh (quiet_world 100)) ++
        [Call.main_loop])).2 = [] ∧
    (run ⟨false, false, 0, 100, 0, 0, false, false, 0, []⟩
      (Call.refresh (moved_world 100 5) :: List.replicate 19 (Call.refresh (quiet_world 100)) ++
        [Call.main_loop])).1.current_speed = 100 ∧
    (on_refresh ⟨false, false, 19, 100, 0, 0, false, false, 0, []⟩
      (moved_world 100 5)).1.current_speed = 100 := by
  decide

theorem speed_inv_on_refresh (s : State) (w : World) (h : speed_inv s) :
    speed_inv (on_refresh s w).1 := by
  cases hc : w.click
  · by_cases hslow : (s.update_counts + 1) % counter_modulus % 20 = 0
    · obtain ⟨_, a2, a3, a4⟩ := on_refresh_slow s w hc hslow
      unfold speed_inv at h ⊢
      rw [a2, a3, a4]
      cases hs : s.speed_changed <;> cases hi : s.issue_change_speed <;>
        cases hv : w.control_value_change <;>
        by_cases h10 : 10 ≤ w.get_control_value <;>
        simp [hs, hi, hv, h10] at h ⊢ <;> omega
    · obtain ⟨_, a2, a3, a4⟩ := on_refresh_fast s w hc hslow
      unfold speed_inv at h ⊢
      rw [a2, a3, a4]
      cases hs : s.speed_changed <;> cases hi : s.issue_change_speed <;>
        cases hv : w.control_value_change <;>
        by_cases h10 : 10 ≤ w.get_control_value <;>
        simp [hs, hi, hv, h10] at h ⊢ <;> omega
  · rw [on_refresh_click s w hc]; exact h

theorem speed_inv_on_main_loop (s : State) (h : speed_inv s) : speed_inv (on_main_loop s).1 := by
  obtain ⟨_, a2, a3, a4⟩ := on_main_loop_fields s
  unfold speed_inv at h ⊢
  rw [a2, a3, a4]
  intro hf
  exact h (by tauto)

theorem speed_inv_on_enter (s : State) (w : World)
    (he : enter_safe s (Call.enter w) = true) : speed_inv (on_enter s w).1 := by
  obtain ⟨_, a2, a3, a4⟩ := on_enter_fields s w
  unfold speed_inv
  rw [a2, a3, a4]
  simp only [enter_safe, Bool.or_eq_true, Bool.and_eq_true, Bool.not_eq_true',
    decide_eq_true_eq] at he
  intro hf
  rcases he with ⟨h1, h2⟩ | h3
  · rw [h1, h2] at hf; simp at hf
  · exact h3

theorem speed_inv_run (cs : List Call) : ∀ s : State, speed_inv s → calls_safe s cs = true →
    speed_inv (run s cs).1 ∧ ∀ v ∈ speed_commands (run s cs).2, 10 ≤ v := by
  induction cs with
  | nil => intro s h _; exact ⟨h, by simp [run, speed_commands]⟩
  | cons c cs ih =>
    intro s h hs
    simp only [calls_safe, Bool.and_eq_true] at hs
    have hstep : speed_inv (step s c).1 ∧ ∀ v ∈ speed_commands (step s c).2, 10 ≤ v := by
      cases c with
      | enter w =>
        exact ⟨speed_inv_on_enter s w hs.1, by simp [step, speed_commands_on_enter]⟩
      | refresh w =>
        exact ⟨speed_inv_on_refresh s w h, by simp [step, speed_commands_on_refresh]⟩
      | main_loop =>
        refine ⟨speed_inv_on_main_loop s h, ?_⟩
        simp only [step, speed_commands_on_main_loop]
        intro v hv
        split_ifs at hv with hi
        · simp only [List.mem_singleton] at hv
          rw [hv]; exact h (Or.inr hi)
        · simp at hv
    obtain ⟨h1, h2⟩ := ih (step s c).1 hstep.1 hs.2
    refine ⟨h1, ?_⟩
    intro v hv
    simp only [run, speed_commands_append, List.mem_append] at hv
    rcases hv with hv | hv
    · exact hstep.2 v hv
    · exact h2 v hv

/-- C9 (as stated, refuted). From a freshly constructed controller: the operator
moves the control to 50 (a change is flagged) and clicks to leave the screen;
the screen is entered again while the robot reports 5 percent, the 20-tick
window runs out and the main loop runs. The command sent is M220 S5, and
`on_enter` has broken the invariant. -/
theorem on_enter_lets_low_speed_through :
    speed_commands (run (WatchScreen_new ⟨true, true, 7, 3, 0, 0, false, false, 0, []⟩)
      (Call.refresh (moved_world 100 50) :: Call.refresh (clicked_world 100) ::
        Call.enter (quiet_world 5) ::
        List.replicate 19 (Call.refresh (quiet_world 5)) ++ [Call.main_loop])).2 = [5] ∧
    speed_inv ⟨true, false, 1, 50, 0, 0, false, false, 0, []⟩ ∧
    ¬ speed_inv (on_enter ⟨true, false, 1, 50, 0, 0, false, false, 0, []⟩ (quiet_world 5)).1 := by
  refine ⟨by decide, ?_, ?_⟩
  · unfold speed_inv
    decide
  · unfold speed_inv
    decide

/-- C9 (amended). The invariant "a flagged or pending change implies
`current_speed ≥ 10`" holds for a freshly constructed controller and is
preserved by `on_refresh` and `on_main_loop` for arbitrary control inputs,
clicks and robot speeds, and by `on_enter` when no change is flagged or pending
or the robot reports at least 10 (`on_enter` overwrites `current_speed` and
leaves the flags alone). Hence along every sequence of calls whose `on_enter`
calls are of that kind, every M220 command sent carries S at least 10. -/
theorem speed_commands_at_least_ten (raw : State) (cs : List Call)
    (h : calls_safe (WatchScreen_new raw) cs = true) :
    speed_inv (WatchScreen_new raw) ∧
    (∀ (s : State) (w : World), speed_inv s → speed_inv (on_refresh s w).1) ∧
    (∀ s : State, speed_inv s → speed_inv (on_main_loop s).1) ∧
    (∀ (s : State) (w : World), speed_inv s → enter_safe s (Call.enter w) = true →
      speed_inv (on_enter s w).1) ∧
    speed_inv (run (WatchScreen_new raw) cs).1 ∧
    (∀ v ∈ speed_commands (run (WatchScreen_new raw) cs).2, 10 ≤ v) := by
  have h0 : speed_inv (WatchScreen_new raw) := by
    unfold speed_inv WatchScreen_new
    simp
  obtain ⟨h1, h2⟩ := speed_inv_run cs _ h0 h
  exact ⟨h0, speed_inv_on_refresh, speed_inv_on_main_loop,
    fun s w _ he => speed_inv_on_enter s w he, h1, h2⟩

/-- Witness for C9: enter with the robot at 4 percent while nothing is flagged,
move the control to 3, then to 50, let the window run out and flush: the one
command sent carries 50. -/
theorem speed_commands_at_least_ten_witness :
    calls_safe (WatchScreen_new ⟨true, true, 7, 3, 0, 0, false, false, 0, []⟩)
      (Call.enter (quiet_world 4) :: Call.refresh (moved_world 4 3) ::
        Call.refresh (moved_world 4 50) :: List.replicate 18 (Call.refresh (quiet_world 4)) ++
        [Call.main_loop]) = true ∧
    speed_commands (run (WatchScreen_new ⟨true, true, 7, 3, 0, 0, false, false, 0, []⟩)
      (Call.enter (quiet_world 4) :: Call.refresh (moved_world 4 3) ::
        Call.refresh (moved_world 4 50) :: List.replicate 18 (Call.refresh (quiet_world 4)) ++
        [Call.main_loop])).2 = [50] ∧
    ∀ v ∈ speed_commands (run (WatchScreen_new ⟨true, true, 7, 3, 0, 0, false, false, 0, []⟩)
      (Call.enter (quiet_world 4) :: Call.refresh (moved_world 4 3) ::
        Call.refresh (moved_world 4 50) :: List.replicate 18 (Call.refresh (quiet_world 4)) ++
        [Call.main_loop])).2, 10 ≤ v :=
  ⟨by decide, by decide, (speed_commands_at_least_ten _ _ (by decide)).2.2.2.2.2⟩


theorem run_append (a : List Call) : ∀ (s : State) (b : List Call),
    run s (a ++ b) = ((run (run s a).1 b).1, (run s a).2 ++ (run (run s a).1 b).2) := by
  induction a with
  | nil => intro s b; simp [run]
  | cons c a ih => intro s b; simp [run, ih, List.append_assoc]

/-- Counting: commands sent plus a still pending one never exceed the slow
ticks taken plus a change pending at the start. -/
theorem commands_le_slow_ticks (cs : List Call) : ∀ s : State,
    (speed_commands (run s cs).2).length + (if (run s cs).1.issue_change_speed then 1 else 0)
      ≤ slow_ticks s cs + (if s.issue_change_speed then 1 else 0) := by
  induction cs with
  | nil => intro s; simp [run, slow_ticks, speed_commands]
  | cons c cs ih =>
    intro s
    have h := ih (step s c).1
    simp only [run, slow_ticks, speed_commands_append, List.length_append]
    have hstep : (speed_commands (step s c).2).length +
        (if (step s c).1.issue_change_speed then 1 else 0)
        ≤ (if is_slow_tick s c then 1 else 0) + (if s.issue_change_speed then 1 else 0) := by
      cases c with
      | enter w =>
        simp only [step, speed_commands_on_enter, is_slow_tick, (on_enter_fields s w).2.2.1]
        simp
      | main_loop =>
        simp only [step, speed_commands_on_main_loop, is_slow_tick, (on_main_loop_fields s).2.2.1]
        split_ifs <;> simp
      | refresh w =>
        simp only [step, speed_commands_on_refresh, is_slow_tick]
        rcases Bool.eq_false_or_eq_true w.click with hc | hc
        · simp [on_refresh_click s w hc]
        · by_cases hslow : (s.update_counts + 1) % counter_modulus % 20 = 0
          · simp only [(on_refresh_slow s w hc hslow).2.2.1, hc, hslow, beq_self_eq_true,
              Bool.not_false, Bool.and_self, if_true, List.length_nil, Nat.zero_add]
            split_ifs <;> omega
          · simp [(on_refresh_fast s w hc hslow).2.2.1]
    omega

theorem latest_move_cons (m0 : Option Int) (c : Call) (cs : List Call) :
    latest_move m0 (c :: cs) = latest_move (latest_move m0 [c]) cs := by
  simp only [latest_move, last_move]
  cases last_move cs <;> rfl

theorem carries_latest_step (s : State) (m0 : Option Int) (c : Call) (hc : no_click c = true)
    (h : carries_latest m0 s) : carries_latest (latest_move m0 [c]) (step s c).1 := by
  cases c with
  | enter w => simp [no_click] at hc
  | main_loop =>
    obtain ⟨_, a2, a3, a4⟩ := on_main_loop_fields s
    unfold carries_latest at h ⊢
    simp only [step, a2, a3, a4, latest_move, last_move]
    intro hf
    exact h (by tauto)
  | refresh w =>
    simp only [no_click, Bool.not_eq_true'] at hc
    unfold carries_latest at h ⊢
    simp only [step, latest_move, last_move, hc, Bool.not_false, Bool.true_and]
    by_cases hslow : (s.update_counts + 1) % counter_modulus % 20 = 0
    · obtain ⟨_, a2, a3, a4⟩ := on_refresh_slow s w hc hslow
      rw [a2, a3, a4]
      cases hv : w.control_value_change
      · cases hs : s.speed_changed <;> cases hi : s.issue_change_speed <;>
          simp [hs, hi] at h ⊢ <;> exact h
      · cases hs : s.speed_changed <;> cases hi : s.issue_change_speed <;>
          by_cases h10 : 10 ≤ w.get_control_value <;> simp [hs, hi, h10]
    · obtain ⟨_, a2, a3, a4⟩ := on_refresh_fast s w hc hslow
      rw [a2, a3, a4]
      cases hv : w.control_value_change
      · simpa using h
      · simp

theorem carries_latest_run (cs : List Call) : ∀ (s : State) (m0 : Option Int),
    (∀ c ∈ cs, no_click c = true) → carries_latest m0 s →
    carries_latest (latest_move m0 cs) (run s cs).1 := by
  induction cs with
  | nil => intro s m0 _ h; simpa [run, latest_move, last_move] using h
  | cons c cs ih =>
    intro s m0 hc h
    rw [latest_move_cons]
    exact ih (step s c).1 _ (fun x hx => hc x (List.mem_cons_of_mem _ hx))
      (carries_latest_step s m0 c (hc c (List.mem_cons_self _ _)) h)

theorem window_speed_changed (cs : List Call) : ∀ s : State,
    (∀ c ∈ cs, no_click c = true) → slow_ticks s cs = 0 →
    (run s cs).1.speed_changed = (s.speed_changed || cs.any flags_change) := by
  induction cs with
  | nil => intro s _ _; simp [run]
  | cons c cs ih =>
    intro s hc h0
    simp only [slow_ticks, Nat.add_eq_zero] at h0
    have hstep : (step s c).1.speed_changed = (s.speed_changed || flags_change c) := by
      have hcc := hc c (List.mem_cons_self _ _)
      cases c with
      | enter w => simp [no_click] at hcc
      | main_loop => simp [step, flags_change, (on_main_loop_fields s).2.1]
      | refresh w =>
        simp only [no_click, Bool.not_eq_true'] at hcc
        have hslow : ¬ (s.update_counts + 1) % counter_modulus % 20 = 0 := by
          intro hh
          have := h0.1
          simp [is_slow_tick, hcc, hh] at this
        simp [step, flags_change, (on_refresh_fast s w hcc hslow).2.1, hcc]
    simp only [run, List.any_cons]
    rw [ih (step s c).1 (fun x hx => hc x (List.mem_cons_of_mem _ hx)) h0.2, hstep,
      Bool.or_assoc]

theorem latest_move_none (cs : List Call) : latest_move none cs = last_move cs := by
  unfold latest_move
  cases last_move cs <;> rfl

theorem carries_latest_of_clear (s : State) (hs : s.speed_changed = false)
    (hi : s.issue_change_speed = false) : carries_latest none s := by
  unfold carries_latest
  rw [hs, hi]
  simp

/-- C2 (as stated, refuted). Two moves inside one 20-tick window, to 50 and
then to 5: the one command sent carries 10, not the last moved-to value 5. With
both moves below 10 (to 5, then to 7) no command is sent for the window at all. -/
theorem coalesced_command_is_clamped :
    last_move (Call.refresh (moved_world 100 50) :: Call.refresh (moved_world 100 5) ::
      List.replicate 18 (Call.refresh (quiet_world 100)) ++ [Call.main_loop]) = some 5 ∧
    speed_commands (run ⟨false, false, 0, 100, 0, 0, false, false, 0, []⟩
      (Call.refresh (moved_world 100 50) :: Call.refresh (moved_world 100 5) ::
        List.replicate 18 (Call.refresh (quiet_world 100)) ++ [Call.main_loop])).2 = [10] ∧
    speed_commands (run ⟨false, false, 0, 100, 0, 0, false, false, 0, []⟩
      (Call.refresh (moved_world 100 5) :: Call.refresh (moved_world 100 7) ::
        List.replicate 18 (Call.refresh (quiet_world 100)) ++ [Call.main_loop])).2 = [] := by
  decide


/-- In a stretch of calls without a slow tick, a pending change is sent by the
first main-loop call and nothing else is sent. -/
theorem window_pending (cs : List Call) : ∀ s : State,
    (∀ c ∈ cs, no_click c = true) → slow_ticks s cs = 0 →
    (run s cs).1.issue_change_speed = (s.issue_change_speed && !cs.any is_main_loop) ∧
    (speed_commands (run s cs).2).length
      = (if (s.issue_change_speed && cs.any is_main_loop) = true then 1 else 0) := by
  induction cs with
  | nil => intro s _ _; simp [run, speed_commands]
  | cons c cs ih =>
    intro s hc h0
    simp only [slow_ticks, Nat.add_eq_zero] at h0
    obtain ⟨i1, i2⟩ := ih (step s c).1 (fun x hx => hc x (List.mem_cons_of_mem _ hx)) h0.2
    have hcc := hc c (List.mem_cons_self _ _)
    simp only [run, speed_commands_append, List.length_append, List.any_cons]
    rw [i1, i2]
    cases c with
    | enter w => simp [no_click] at hcc
    | main_loop =>
      simp only [step, is_main_loop, speed_commands_on_main_loop, (on_main_loop_fields s).2.2.1]
      cases s.issue_change_speed <;> simp
    | refresh w =>
      simp only [no_click, Bool.not_eq_true'] at hcc
      have hslow : ¬ (s.update_counts + 1) % counter_modulus % 20 = 0 := by
        intro hh
        have := h0.1
        simp [is_slow_tick, hcc, hh] at this
      simp only [step, is_main_loop, speed_commands_on_refresh,
        (on_refresh_fast s w hcc hslow).2.2.1]
      simp

/-- The slow tick that closes a window: `speed_changed` is cleared; a change is
pending afterwards exactly if one was pending and not sent during the window, or
one was flagged at its start, or some move of the window flagged one; when none
is pending `current_speed` is the robot's reported speed. -/
theorem window_close (s : State) (win : List Call) (w : World)
    (hwin : ∀ c ∈ win, no_click c = true) (hclick : w.click = false)
    (h0 : slow_ticks s win = 0)
    (hslow : is_slow_tick (run s win).1 (Call.refresh w) = true) :
    (run s (win ++ [Call.refresh w])).1.speed_changed = false ∧
    (run s (win ++ [Call.refresh w])).1.issue_change_speed
      = ((s.issue_change_speed && !win.any is_main_loop) ||
          (s.speed_changed || (win ++ [Call.refresh w]).any flags_change)) ∧
    ((run s (win ++ [Call.refresh w])).1.issue_change_speed = false →
      (run s (win ++ [Call.refresh w])).1.current_speed = w.get_current_speed) ∧
    speed_commands (run s (win ++ [Call.refresh w])).2 = speed_commands (run s win).2 := by
  have hsl : ((run s win).1.update_counts + 1) % counter_modulus % 20 = 0 := by
    simpa [is_slow_tick, hclick] using hslow
  obtain ⟨_, a2, a3, a4⟩ := on_refresh_slow (run s win).1 w hclick hsl
  have hsc := window_speed_changed win s hwin h0
  have hiss := (window_pending win s hwin h0).1
  have hany : (win ++ [Call.refresh w]).any flags_change
      = (win.any flags_change || (w.control_value_change && decide (10 ≤ w.get_control_value))) := by
    simp [List.any_append, flags_change, hclick]
  have hrun : run s (win ++ [Call.refresh w])
      = ((on_refresh (run s win).1 w).1,
          (run s win).2 ++ ((on_refresh (run s win).1 w).2 ++ [])) := by
    rw [run_append]; rfl
  have hissue : (on_refresh (run s win).1 w).1.issue_change_speed
      = ((s.issue_change_speed && !win.any is_main_loop) ||
          (s.speed_changed || (win ++ [Call.refresh w]).any flags_change)) := by
    rw [a3, hsc, hiss, hany, Bool.or_assoc]
  rw [hrun]
  refine ⟨a2, hissue, ?_, ?_⟩
  · intro hf
    show (on_refresh (run s win).1 w).1.current_speed = w.get_current_speed
    rw [a3] at hf
    have hf2 := Bool.or_eq_false_iff.mp hf
    rw [a4, if_pos ⟨hf2.2, hf2.1⟩]
  · simp only [speed_commands_append, speed_commands_on_refresh, List.append_nil]

theorem speed_changed_after_slow_tick (s : State) (pre : List Call) (w : World)
    (hslow : is_slow_tick (run s pre).1 (Call.refresh w) = true) :
    (run s (pre ++ [Call.refresh w])).1.speed_changed = false := by
  have hclick : w.click = false := by
    cases h : w.click
    · rfl
    · simp [is_slow_tick, h] at hslow
  have hsl : ((run s pre).1.update_counts + 1) % counter_modulus % 20 = 0 := by
    simpa [is_slow_tick, hclick] using hslow
  have hrun : (run s (pre ++ [Call.refresh w])).1 = (on_refresh (run s pre).1 w).1 := by
    rw [run_append]; rfl
  rw [hrun]
  exact (on_refresh_slow (run s pre).1 w hclick hsl).2.1

/-- C2 (amended). For every interleaving of `on_refresh` (no click) and
`on_main_loop` calls started with neither flag set:
(1) the number of commands sent never exceeds the number of slow-path ticks;
(2) in any stretch of calls without a slow tick exactly one command is sent if a
change is pending at its start and the main loop is called in it, and none
otherwise, so at most one command is sent between two consecutive slow ticks
however often the control is moved;
(3) every command sent carries the latest moved-to value, raised to 10 when that
was below 10;
(4) the slow tick that closes a 20-tick window (the calls after the previous slow
tick, or after the start, up to and including it) clears `speed_changed` and
leaves a change pending exactly if one was pending before the window and the
main loop was not called in it, or some move of the window was to 10 or more; a
main-loop call right after that tick then sends exactly one command, and none
otherwise. -/
theorem speed_changes_coalesce (s : State) (cs : List Call) (hs : s.speed_changed = false)
    (hi : s.issue_change_speed = false) (hc : ∀ c ∈ cs, no_click c = true) :
    (speed_commands (run s cs).2).length ≤ slow_ticks s cs ∧
    (∀ pre seg : List Call, cs = pre ++ seg → slow_ticks (run s pre).1 seg = 0 →
      (run s cs).1.issue_change_speed
        = ((run s pre).1.issue_change_speed && !seg.any is_main_loop) ∧
      (speed_commands (run (run s pre).1 seg).2).length
        = (if ((run s pre).1.issue_change_speed && seg.any is_main_loop) = true then 1 else 0)) ∧
    (∀ pre post : List Call, cs = pre ++ Call.main_loop :: post →
      ∀ v ∈ speed_commands (on_main_loop (run s pre).1).2,
        ∃ m, last_move pre = some m ∧ v = max 10 m) ∧
    (∀ (pre win : List Call) (w : World), cs = pre ++ win ++ [Call.refresh w] →
      (pre = [] ∨ ∃ (pre0 : List Call) (w0 : World), pre = pre0 ++ [Call.refresh w0] ∧
        is_slow_tick (run s pre0).1 (Call.refresh w0) = true) →
      slow_ticks (run s pre).1 win = 0 →
      is_slow_tick (run s (pre ++ win)).1 (Call.refresh w) = true →
      (run s cs).1.speed_changed = false ∧
      (run s cs).1.issue_change_speed
        = (((run s pre).1.issue_change_speed && !win.any is_main_loop) ||
            (win ++ [Call.refresh w]).any flags_change) ∧
      ((run s cs).1.issue_change_speed = true →
        ∃ m, last_move cs = some m ∧
          speed_commands (on_main_loop (run s cs).1).2 = [max 10 m]) ∧
      ((run s cs).1.issue_change_speed = false →
        speed_commands (on_main_loop (run s cs).1).2 = [])) := by
  refine ⟨?_, ?_, ?_, ?_⟩
  · have h := commands_le_slow_ticks cs s
    rw [hi] at h
    simp only [Bool.false_eq_true, if_false, Nat.add_zero] at h
    omega
  · intro pre seg hcs h0
    have hseg : ∀ c ∈ seg, no_click c = true := fun c hx =>
      hc c (by rw [hcs]; exact List.mem_append_right _ hx)
    obtain ⟨p1, p2⟩ := window_pending seg (run s pre).1 hseg h0
    refine ⟨?_, p2⟩
    rw [hcs, run_append]
    exact p1
  · intro pre post hcs v hv
    have hpre : ∀ c ∈ pre, no_click c = true := fun c hx =>
      hc c (by rw [hcs]; exact List.mem_append_left _ hx)
    have hJ := carries_latest_run pre s none hpre (carries_latest_of_clear s hs hi)
    rw [latest_move_none] at hJ
    rw [speed_commands_on_main_loop] at hv
    split_ifs at hv with hissue
    · simp only [List.mem_singleton] at hv
      obtain ⟨m, hm, hcur⟩ := hJ (Or.inr hissue)
      exact ⟨m, hm, by rw [hv, hcur]⟩
    · simp at hv
  · intro pre win w hcs hstart h0 hslow
    have hwin : ∀ c ∈ win, no_click c = true := fun c hx =>
      hc c (by rw [hcs]; simp [hx])
    have hw : no_click (Call.refresh w) = true := hc _ (by rw [hcs]; simp)
    have hclick : w.click = false := by simpa [no_click] using hw
    have hsc0 : (run s pre).1.speed_changed = false := by
      rcases hstart with rfl | ⟨pre0, w0, rfl, hsl0⟩
      · exact hs
      · exact speed_changed_after_slow_tick s pre0 w0 hsl0
    have hmid : (run s (pre ++ win)).1 = (run (run s pre).1 win).1 := by
      rw [run_append]
    rw [hmid] at hslow
    obtain ⟨c1, c2, _, _⟩ := window_close (run s pre).1 win w hwin hclick h0 hslow
    have hfin : (run s cs).1 = (run (run s pre).1 (win ++ [Call.refresh w])).1 := by
      rw [hcs, List.append_assoc, run_append]
    rw [hsc0, Bool.false_or] at c2
    have hJ := carries_latest_run cs s none hc (carries_latest_of_clear s hs hi)
    rw [latest_move_none] at hJ
    rw [hfin] at hJ ⊢
    refine ⟨c1, c2, ?_, ?_⟩
    · intro ht
      obtain ⟨m, hm, hcur⟩ := hJ (Or.inr ht)
      exact ⟨m, hm, by rw [speed_commands_on_main_loop, if_pos ht, hcur]⟩
    · intro hf
      rw [speed_commands_on_main_loop, hf]
      rfl

/-- Witness for C2: moves to 50 and then 60 in one window; the single command
sent after the slow tick carries 60. When a change from one window is still
pending and the next window only has moves to 5 and 7, the one command sent
after it carries 10. -/
theorem speed_changes_coalesce_witness :
    (⟨false, false, 0, 100, 0, 0, false, false, 0, []⟩ : State).speed_changed = false ∧
    (⟨false, false, 0, 100, 0, 0, false, false, 0, []⟩ : State).issue_change_speed = false ∧
    (∀ c ∈ Call.refresh (moved_world 100 50) :: Call.refresh (moved_world 100 60) ::
        List.replicate 18 (Call.refresh (quiet_world 100)) ++ [Call.main_loop],
      no_click c = true) ∧
    speed_commands (run ⟨false, false, 0, 100, 0, 0, false, false, 0, []⟩
      (Call.refresh (moved_world 100 50) :: Call.refresh (moved_world 100 60) ::
        List.replicate 18 (Call.refresh (quiet_world 100)) ++ [Call.main_loop])).2 = [60] ∧
    (speed_commands (run ⟨false, false, 0, 100, 0, 0, false, false, 0, []⟩
      (Call.refresh (moved_world 100 50) :: Call.refresh (moved_world 100 60) ::
        List.replicate 18 (Call.refresh (quiet_world 100)) ++ [Call.main_loop])).2).length
      ≤ slow_ticks ⟨false, false, 0, 100, 0, 0, false, false, 0, []⟩
          (Call.refresh (moved_world 100 50) :: Call.refresh (moved_world 100 60) ::
            List.replicate 18 (Call.refresh (quiet_world 100)) ++ [Call.main_loop]) ∧
    speed_commands (run ⟨false, false, 0, 100, 0, 0, false, false, 0, []⟩
      (Call.refresh (moved_world 100 50) :: List.replicate 19 (Call.refresh (quiet_world 100)) ++
        Call.refresh (moved_world 100 5) :: Call.refresh (moved_world 100 7) ::
        List.replicate 18 (Call.refresh (quiet_world 100)) ++ [Call.main_loop])).2 = [10] :=
  ⟨rfl, rfl, by decide, by decide,
    (speed_changes_coalesce ⟨false, false, 0, 100, 0, 0, false, false, 0, []⟩ _ rfl rfl
      (by decide)).1, by decide⟩

/-- C3 (amended). On an `on_refresh` call without click in which the control
reports a change to a value below 10, the speed-control block sets
`current_speed` to exactly 10, force-writes 10 to the control and resets its
counter, and leaves both flags as they were: the clamped move is not flagged.
After the call `speed_changed` is set exactly if it was set before and the call
does not take the slow path; a change is pending exactly if one was pending
before, or one was flagged and the call takes the slow path; `current_speed` is
10 unless the call takes the slow path with nothing flagged or pending, where it
is the robot's reported speed; and a main-loop call right after issues 10
exactly when a change is pending, and nothing otherwise. When nothing was
flagged or pending before the move and no move to 10 or more follows up to and
including the window's slow tick, no command is sent and that slow tick sets
`current_speed` to the robot's reported speed. -/
theorem on_refresh_clamps_below_ten (s : State) (w : World) (hc : w.click = false)
    (hv : w.control_value_change = true) (h10 : w.get_control_value < 10) :
    speed_input s w
      = ({ s with current_speed := 10 }, [Effect.set_control_value 10, Effect.reset_counter]) ∧
    (on_refresh s w).2.take 2 = [Effect.set_control_value 10, Effect.reset_counter] ∧
    (on_refresh s w).1.speed_changed
      = (s.speed_changed && !decide ((s.update_counts + 1) % counter_modulus % 20 = 0)) ∧
    (on_refresh s w).1.issue_change_speed
      = (s.issue_change_speed ||
          (decide ((s.update_counts + 1) % counter_modulus % 20 = 0) && s.speed_changed)) ∧
    (on_refresh s w).1.current_speed
      = (if (s.update_counts + 1) % counter_modulus % 20 = 0 ∧ s.speed_changed = false ∧
            s.issue_change_speed = false
         then w.get_current_speed else 10) ∧
    speed_commands (on_main_loop (on_refresh s w).1).2
      = (if s.issue_change_speed = true ∨
            ((s.update_counts + 1) % counter_modulus % 20 = 0 ∧ s.speed_changed = true)
         then [10] else []) ∧
    (∀ (win : List Call) (w2 : World), s.speed_changed = false →
      s.issue_change_speed = false → (∀ c ∈ win, no_click c = true) → w2.click = false →
      slow_ticks s (Call.refresh w :: win) = 0 →
      is_slow_tick (run s (Call.refresh w :: win)).1 (Call.refresh w2) = true →
      (win ++ [Call.refresh w2]).any flags_change = false →
      speed_commands (run s (Call.refresh w :: win ++ [Call.refresh w2, Call.main_loop])).2 = [] ∧
      (run s (Call.refresh w :: win ++ [Call.refresh w2, Call.main_loop])).1.current_speed
        = w2.get_current_speed) := by
  have hn : ¬ (10 ≤ w.get_control_value) := by omega
  have hmax : max 10 w.get_control_value = 10 := by omega
  have hin : speed_input s w
      = ({ s with current_speed := 10 }, [Effect.set_control_value 10, Effect.reset_counter]) := by
    simp [speed_input, hv, h10]
  have htake : (on_refresh s w).2.take 2 = [Effect.set_control_value 10, Effect.reset_counter] := by
    simp only [on_refresh, hc, Bool.false_eq_true, if_false, hin]
    split_ifs <;> rfl
  have hlater : ∀ (win : List Call) (w2 : World), s.speed_changed = false →
      s.issue_change_speed = false → (∀ c ∈ win, no_click c = true) → w2.click = false →
      slow_ticks s (Call.refresh w :: win) = 0 →
      is_slow_tick (run s (Call.refresh w :: win)).1 (Call.refresh w2) = true →
      (win ++ [Call.refresh w2]).any flags_change = false →
      speed_commands (run s (Call.refresh w :: win ++ [Call.refresh w2, Call.main_loop])).2 = [] ∧
      (run s (Call.refresh w :: win ++ [Call.refresh w2, Call.main_loop])).1.current_speed
        = w2.get_current_speed := by
    intro win w2 hs hi hwin hc2 h0 hslow hnone
    have hwin2 : ∀ c ∈ Call.refresh w :: win, no_click c = true := by
      intro c hx
      rcases List.mem_cons.mp hx with rfl | hx
      · simp [no_click, hc]
      · exact hwin c hx
    obtain ⟨_, c2, c3, c4⟩ := window_close s (Call.refresh w :: win) w2 hwin2 hc2 h0 hslow
    have hflag : ((Call.refresh w :: win) ++ [Call.refresh w2]).any flags_change = false := by
      have h1 : flags_change (Call.refresh w) = false := by simp [flags_change, hn]
      rw [List.cons_append, List.any_cons, h1, Bool.false_or]
      exact hnone
    rw [hs, hi, hflag] at c2
    simp only [Bool.false_and, Bool.or_self] at c2
    have hcur := c3 c2
    have hlen := (window_pending (Call.refresh w :: win) s hwin2 h0).2
    rw [hi] at hlen
    simp only [Bool.false_and, Bool.false_eq_true, if_false] at hlen
    have hcmd : speed_commands (run s ((Call.refresh w :: win) ++ [Call.refresh w2])).2 = [] := by
      rw [c4]; exact List.length_eq_zero.mp hlen
    have hsplit : Call.refresh w :: win ++ [Call.refresh w2, Call.main_loop]
        = ((Call.refresh w :: win) ++ [Call.refresh w2]) ++ [Call.main_loop] := by simp
    obtain ⟨_, _, _, m4⟩ := on_main_loop_fields (run s ((Call.refresh w :: win) ++ [Call.refresh w2])).1
    have hml : ∀ t : State, run t [Call.main_loop]
        = ((on_main_loop t).1, (on_main_loop t).2 ++ []) := fun _ => rfl
    rw [hsplit, run_append, hml]
    refine ⟨?_, ?_⟩
    · simp only [speed_commands_append, hcmd, speed_commands_on_main_loop, c2,
        List.nil_append, List.append_nil, Bool.false_eq_true, if_false]
    · exact m4.trans hcur
  by_cases hslow : (s.update_counts + 1) % counter_modulus % 20 = 0
  · obtain ⟨_, a2, a3, a4⟩ := on_refresh_slow s w hc hslow
    refine ⟨hin, htake, ?_, ?_, ?_, ?_, hlater⟩
    · rw [a2]; simp [hslow]
    · rw [a3]; simp [hslow, hv, hn]
    · rw [a4]; simp [hslow, hv, hn, hmax]
    · rw [speed_commands_on_main_loop, a3, a4]
      cases hs : s.speed_changed <;> cases hi : s.issue_change_speed <;>
        simp [hslow, hv, hn, hmax]
  · obtain ⟨_, a2, a3, a4⟩ := on_refresh_fast s w hc hslow
    refine ⟨hin, htake, ?_, ?_, ?_, ?_, hlater⟩
    · rw [a2]; simp [hslow, hv, hn]
    · rw [a3]; simp [hslow]
    · rw [a4]; simp [hslow, hv, hmax]
    · rw [speed_commands_on_main_loop, a3, a4]
      cases hi : s.issue_change_speed <;> simp [hslow, hv, hmax]

/-- Witness for C3: with a change already flagged, a move to 5 on the slow tick
makes the next main-loop call issue 10; with nothing flagged or pending, a move
to 5 followed by a quiet window sends nothing. -/
theorem on_refresh_clamps_below_ten_witness :
    (moved_world 100 5).click = false ∧ (moved_world 100 5).control_value_change = true ∧
    (moved_world 100 5).get_control_value < 10 ∧
    speed_commands (on_main_loop (on_refresh ⟨true, false, 19, 50, 0, 0, false, false, 0, []⟩
      (moved_world 100 5)).1).2 = [10] ∧
    speed_commands (run ⟨false, false, 0, 100, 0, 0, false, false, 0, []⟩
      (Call.refresh (moved_world 100 5) :: List.replicate 18 (Call.refresh (quiet_world 100)) ++
        [Call.refresh (quiet_world 100), Call.main_loop])).2 = [] :=
  ⟨rfl, rfl, by decide, by
    have h := (on_refresh_clamps_below_ten ⟨true, false, 19, 50, 0, 0, false, false, 0, []⟩
      (moved_world 100 5) rfl rfl (by decide)).2.2.2.2.2.1
    rw [h]; decide,
    ((on_refresh_clamps_below_ten ⟨false, false, 0, 100, 0, 0, false, false, 0, []⟩
      (moved_world 100 5) rfl rfl (by decide)).2.2.2.2.2.2
      (List.replicate 18 (Call.refresh (quiet_world 100))) (quiet_world 100) rfl rfl
      (by decide) rfl (by decide) (by decide) (by decide)).1⟩

end WatchScreen
